/-
Verification of the virtual-patient sensor-data generator
(src/generate_data.py) against its natural-language specification.

Modelling conventions (shallow embedding):

* The process-wide seeded PRNG (random.seed(42) at module load) is an
  oracle stream s : ℕ → ℝ of raw draws, consumed in program order.
  A fixed seed fixes the stream, so two runs with the same seed are two
  runs on the same stream.
  - random.random() consumes the fractional part of the next raw draw:
    its value set is exactly [0,1), the support of random.random().
  - random.uniform(a,b) is a + (b-a)*random(), as in CPython.
  - random.gauss(0, sigma) consumes 0 + sigma * (next raw draw); a
    gaussian's support is all of ℝ, so the unconstrained raw draw is the
    faithful model of its outcome.
  - random.randint(a,b) consumes one draw, yielding an integer in [a,b].
* Python floats are idealised as real numbers; round(x, k) is exact
  decimal rounding with ties to even (Python's documented behaviour for
  round), and int(x) truncates towards zero.
* datetime values are modelled by their epoch-seconds value; BASE_TIME =
  2024-03-15T08:00:00+00:00 is epoch second 1710489600.  isoformat /
  strftime string rendering and CSV/JSON persistence are the out-of-scope
  I/O glue of the spec; the emitted record values they serialise are
  modelled exactly (including the integer unix-millisecond and
  unix-second truncations, which the persisted numbers expose).
-/
import Mathlib

noncomputable section

open scoped Classical

namespace VPG

/-- Oracle stream standing for the seeded process-wide PRNG state. -/
def RNG : Type := ℕ → ℝ

/-- Advance the stream past one consumed draw. -/
def shift (s : RNG) : RNG := fun n => s (n + 1)

/-- Python random.random(): one draw, valued in [0,1). -/
def rand1 (s : RNG) : ℝ × RNG := (Int.fract (s 0), shift s)

/-- Python random.uniform(a, b) = a + (b-a) * random(). -/
def unif (a b : ℝ) (s : RNG) : ℝ × RNG :=
  (a + Int.fract (s 0) * (b - a), shift s)

/-- Python random.gauss(mu, sigma): mu + sigma * (raw gaussian draw). -/
def gaussD (mu sigma : ℝ) (s : RNG) : ℝ × RNG := (mu + sigma * s 0, shift s)

/-- add_noise(value, noise_level) = value * (1 + gauss(0, noise_level)). -/
def addNoise (v lvl : ℝ) (s : RNG) : ℝ × RNG :=
  (v * (1 + (gaussD 0 lvl s).1), (gaussD 0 lvl s).2)

/-- Python random.randint(a, b): an integer in [a, b], both ends included. -/
def randintD (a b : ℤ) (s : RNG) : ℤ × RNG :=
  (a + ⌊Int.fract (s 0) * ((b : ℝ) - (a : ℝ) + 1)⌋, shift s)

/-- Python int(): truncation towards zero. -/
def truncZ (x : ℝ) : ℤ := if 0 ≤ x then ⌊x⌋ else ⌈x⌉

/-- Rounding to the nearest integer with ties to even (Python round, 0 digits). -/
def rnd (x : ℝ) : ℤ :=
  if Int.fract x < 1 / 2 then ⌊x⌋
  else if 1 / 2 < Int.fract x then ⌊x⌋ + 1
  else if Even ⌊x⌋ then ⌊x⌋ else ⌊x⌋ + 1

/-- Python round(x, k): decimal rounding at k digits, ties to even. -/
def roundTo (k : ℕ) (x : ℝ) : ℝ := (rnd (x * 10 ^ k) : ℝ) / 10 ^ k

lemma floor_le_rnd (x : ℝ) : ⌊x⌋ ≤ rnd x := by
  unfold rnd
  split_ifs <;> omega

lemma rnd_le_floor_add_one (x : ℝ) : rnd x ≤ ⌊x⌋ + 1 := by
  unfold rnd
  split_ifs <;> omega

lemma le_rnd_of_le {n : ℤ} {x : ℝ} (h : (n : ℝ) ≤ x) : n ≤ rnd x :=
  le_trans (Int.le_floor.mpr h) (floor_le_rnd x)

lemma rnd_le_of_le {m : ℤ} {x : ℝ} (h : x ≤ (m : ℝ)) : rnd x ≤ m := by
  have hfl : ⌊x⌋ ≤ m := Int.floor_le_floor h |>.trans_eq (Int.floor_intCast m)
  unfold rnd
  split_ifs with h1 h2 h3
  · exact hfl
  · -- fract x > 1/2, so x is not an integer, hence ⌊x⌋ < m
    rcases eq_or_lt_of_le hfl with he | hl
    · exfalso
      have : Int.fract x = x - (m : ℝ) := by rw [Int.fract, he]
      have hx : x - (m : ℝ) ≤ 0 := by linarith
      rw [this] at h2; linarith
    · omega
  · exact le_trans (le_refl _) hfl
  · rcases eq_or_lt_of_le hfl with he | hl
    · exfalso
      have hf : Int.fract x = x - (m : ℝ) := by rw [Int.fract, he]
      have : Int.fract x = 1 / 2 := le_antisymm (not_lt.mp h2) (not_lt.mp h1)
      rw [hf] at this
      have hx : x - (m : ℝ) ≤ 0 := by linarith
      linarith
    · omega

lemma rnd_eq_of_abs_lt {n : ℤ} {x : ℝ} (h : |x - (n : ℝ)| < 1 / 2) : rnd x = n := by
  rw [abs_lt] at h
  obtain ⟨h1, h2⟩ := h
  rcases le_or_lt (n : ℝ) x with hc | hc
  · have hfl : ⌊x⌋ = n := Int.floor_eq_iff.mpr ⟨hc, by linarith⟩
    have hfr : Int.fract x < 1 / 2 := by
      rw [Int.fract, hfl]; linarith
    unfold rnd
    rw [if_pos hfr, hfl]
  · have hfl : ⌊x⌋ = n - 1 := by
      apply Int.floor_eq_iff.mpr
      constructor
      · push_cast; linarith
      · push_cast; linarith
    have hfr : 1 / 2 < Int.fract x := by
      rw [Int.fract, hfl]; push_cast; linarith
    unfold rnd
    rw [if_neg (by linarith), if_pos hfr, hfl]
    ring

lemma abs_rnd_sub_le (x : ℝ) : |(rnd x : ℝ) - x| ≤ 1 / 2 := by
  have hfl : (⌊x⌋ : ℝ) ≤ x := Int.floor_le x
  have hfr0 : 0 ≤ Int.fract x := Int.fract_nonneg x
  have hfr1 : Int.fract x < 1 := Int.fract_lt_one x
  have hfx : Int.fract x = x - (⌊x⌋ : ℝ) := rfl
  unfold rnd
  split_ifs with h1 h2 h3 <;> rw [abs_le] <;> constructor <;> push_cast <;> linarith

lemma abs_roundTo_sub_le (k : ℕ) (x : ℝ) : |roundTo k x - x| ≤ 1 / (2 * 10 ^ k) := by
  have hp : (0 : ℝ) < 10 ^ k := by positivity
  have h := abs_rnd_sub_le (x * 10 ^ k)
  unfold roundTo
  rw [show (rnd (x * 10 ^ k) : ℝ) / 10 ^ k - x = ((rnd (x * 10 ^ k) : ℝ) - x * 10 ^ k) / 10 ^ k by
        field_simp; ring,
      abs_div, abs_of_pos hp, div_le_div_iff₀ hp (by positivity)]
  calc |(rnd (x * 10 ^ k) : ℝ) - x * 10 ^ k| * (2 * 10 ^ k)
      ≤ (1 / 2) * (2 * 10 ^ k) := by
        apply mul_le_mul_of_nonneg_right h (by positivity)
    _ = 1 * 10 ^ k := by ring

lemma roundTo_ge {k : ℕ} {n : ℤ} {x : ℝ} (h : (n : ℝ) ≤ x * 10 ^ k) :
    (n : ℝ) / 10 ^ k ≤ roundTo k x := by
  have hp : (0 : ℝ) < 10 ^ k := by positivity
  unfold roundTo
  apply div_le_div_of_nonneg_right _ hp.le
  exact_mod_cast le_rnd_of_le h

lemma roundTo_le {k : ℕ} {m : ℤ} {x : ℝ} (h : x * 10 ^ k ≤ (m : ℝ)) :
    roundTo k x ≤ (m : ℝ) / 10 ^ k := by
  have hp : (0 : ℝ) < 10 ^ k := by positivity
  unfold roundTo
  apply div_le_div_of_nonneg_right _ hp.le
  exact_mod_cast rnd_le_of_le h

lemma unif_fst (a b : ℝ) (s : RNG) : (unif a b s).1 = a + Int.fract (s 0) * (b - a) := rfl

lemma unif_ge {a b : ℝ} (h : a ≤ b) (s : RNG) : a ≤ (unif a b s).1 := by
  rw [unif_fst]
  have := mul_nonneg (Int.fract_nonneg (s 0)) (sub_nonneg.mpr h)
  linarith

lemma unif_lt {a b : ℝ} (h : a < b) (s : RNG) : (unif a b s).1 < b := by
  rw [unif_fst]
  have hf1 : Int.fract (s 0) < 1 := Int.fract_lt_one (s 0)
  have hf0 : 0 ≤ Int.fract (s 0) := Int.fract_nonneg (s 0)
  nlinarith

/-- Pointwise predicate over a list (kept as a plain recursive Prop). -/
def ListAll {α : Type} (p : α → Prop) : List α → Prop
  | [] => True
  | a :: l => p a ∧ ListAll p l

lemma listAll_iff_mem {α : Type} {p : α → Prop} :
    ∀ {l : List α}, ListAll p l ↔ ∀ a ∈ l, p a
  | [] => by simp [ListAll]
  | a :: l => by
    simp only [ListAll, List.mem_cons]
    rw [listAll_iff_mem]
    constructor
    · rintro ⟨hpa, hl⟩ b (rfl | hb)
      · exact hpa
      · exact hl b hb
    · intro h
      exact ⟨h a (Or.inl rfl), fun b hb => h b (Or.inr hb)⟩

lemma listAll_map {α β : Type} {f : α → β} {p : β → Prop} :
    ∀ {l : List α}, ListAll p (l.map f) ↔ ListAll (fun a => p (f a)) l
  | [] => Iff.rfl
  | a :: l => by
    simp only [List.map_cons, ListAll]
    rw [listAll_map]

lemma listAll_imp {α : Type} {p q : α → Prop} (h : ∀ a, p a → q a) :
    ∀ {l : List α}, ListAll p l → ListAll q l
  | [] => fun _ => trivial
  | a :: l => fun ⟨hpa, hl⟩ => ⟨h a hpa, listAll_imp h hl⟩

/-! ## Data model: patient configuration (PATIENT_CONFIGS of the source)

Offsets are in seconds relative to BASE_TIME; gaps are
(start_offset_seconds, duration_seconds) pairs; the activity pattern is
the closed enum of the source. -/

inductive Pattern : Type
  | morningRoutine
  | exerciseSession
  | resting
deriving DecidableEq

structure PatientConfig : Type where
  hrOffset : ℝ
  mvOffset : ℝ
  spOffset : ℝ
  tpOffset : ℝ
  ldOffset : ℝ
  durationHours : ℝ
  pattern : Pattern
  hrGaps : List (ℝ × ℝ)
  mvGaps : List (ℝ × ℝ)
  spGaps : List (ℝ × ℝ)
  tpGaps : List (ℝ × ℝ)
  ldGaps : List (ℝ × ℝ)

/-- patient_001 of PATIENT_CONFIGS. -/
def patient001 : PatientConfig :=
  { hrOffset := 0, mvOffset := 443, spOffset := 225, tpOffset := -900, ldOffset := 728
    durationHours := 2.5, pattern := .morningRoutine
    hrGaps := [(1200, 420), (4200, 180), (6300, 540)]
    mvGaps := [(800, 300), (2400, 600), (5100, 240)]
    spGaps := [(1800, 1200), (5400, 300)]
    tpGaps := [(3000, 180)]
    ldGaps := [(900, 480), (3600, 360)] }

/-- patient_002 of PATIENT_CONFIGS. -/
def patient002 : PatientConfig :=
  { hrOffset := 0, mvOffset := 942, spOffset := 310, tpOffset := -480, ldOffset := 150
    durationHours := 3.0, pattern := .exerciseSession
    hrGaps := [(2100, 600), (5400, 900), (8400, 300)]
    mvGaps := [(1500, 180), (4800, 720), (7200, 240)]
    spGaps := [(3000, 480), (6600, 600)]
    tpGaps := [(4200, 300), (7800, 180)]
    ldGaps := [(1800, 240), (5400, 420)] }

/-- patient_003 of PATIENT_CONFIGS. -/
def patient003 : PatientConfig :=
  { hrOffset := 0, mvOffset := 255, spOffset := 1350, tpOffset := -1500, ldOffset := 525
    durationHours := 2.0, pattern := .resting
    hrGaps := [(1500, 300), (3600, 480)]
    mvGaps := [(900, 420), (2700, 180), (4500, 360)]
    spGaps := [(600, 540)]
    tpGaps := [(1800, 240), (4200, 180)]
    ldGaps := [(2100, 300), (4800, 240)] }

/-- PATIENT_CONFIGS, in dict (insertion) order. -/
def patientConfigs : List PatientConfig := [patient001, patient002, patient003]

/-- BASE_TIME = 2024-03-15T08:00:00+00:00 as epoch seconds. -/
def baseEpoch : ℝ := 1710489600

def hrStart (cfg : PatientConfig) : ℝ := baseEpoch + cfg.hrOffset
def mvStart (cfg : PatientConfig) : ℝ := baseEpoch + cfg.mvOffset
def spStart (cfg : PatientConfig) : ℝ := baseEpoch + cfg.spOffset
def tpStart (cfg : PatientConfig) : ℝ := baseEpoch + cfg.tpOffset
def ldStart (cfg : PatientConfig) : ℝ := baseEpoch + cfg.ldOffset

/-- duration = int(config["duration_hours"] * 3600), shared by the heart
rate, movement, blood oxygen and load generators. -/
def sessionDur (cfg : PatientConfig) : ℝ := (truncZ (cfg.durationHours * 3600) : ℝ)

/-- Temperature duration: int(duration_hours*3600 + abs(temp_offset) + 600). -/
def tpDur (cfg : PatientConfig) : ℝ :=
  (truncZ (cfg.durationHours * 3600 + |cfg.tpOffset| + 600) : ℝ)

/-! ## Activity pattern models (simulate_* of the source) -/

/-- Deterministic base heart rate of simulate_heart_rate, before noise.
For the exercise pattern the source normalises by the fixed window
3*3600 = 10800 seconds. -/
def hrBase (p : Pattern) (t : ℝ) : ℝ :=
  match p with
  | .morningRoutine => 65 + 20 * Real.sin (Int.fract (t / 3600) * Real.pi * 2)
  | .exerciseSession =>
      if t / 10800 < 0.3 then 70 + (t / 10800) * 100
      else if t / 10800 < 0.7 then 130 + 20 * Real.sin ((t / 10800) * 20)
      else 130 - ((t / 10800) - 0.7) * 200
  | .resting => 60 + 5 * Real.sin (t / 600)

/-- simulate_heart_rate: noisy base, truncated to int, clamped to [45,185]. -/
def simulateHeartRate (t : ℝ) (p : Pattern) (s : RNG) : ℤ × RNG :=
  (max 45 (min 185 (truncZ (addNoise (hrBase p t) 0.03 s).1)), (addNoise (hrBase p t) 0.03 s).2)

/-- simulate_movement before the final rounding: the (x, y, z) triple. -/
def simulateMovementXYZ (t : ℝ) (p : Pattern) (s : RNG) : (ℝ × ℝ × ℝ) × RNG :=
  match p with
  | .exerciseSession =>
      if 0.3 < t / 10800 ∧ t / 10800 < 0.7 then
        let xu := unif (-2) 2 s
        let x := addNoise xu.1 0.5 xu.2
        let yu := unif (-1) 1 x.2
        let y := addNoise (-9.81 + yu.1) 0.1 yu.2
        let zu := unif (-2) 2 y.2
        let z := addNoise zu.1 0.5 zu.2
        ((x.1, y.1, z.1), z.2)
      else
        let xu := unif (-0.2) 0.2 s
        let x := addNoise xu.1 0.3 xu.2
        let y := addNoise (-9.81) 0.01 x.2
        let zu := unif (-0.2) 0.2 y.2
        let z := addNoise zu.1 0.3 zu.2
        ((x.1, y.1, z.1), z.2)
  | .morningRoutine =>
      let r := rand1 s
      if r.1 < 0.1 then
        let xu := unif (-1) 1 r.2
        let x := addNoise xu.1 0.3 xu.2
        let zu := unif (-1) 1 x.2
        let z := addNoise zu.1 0.3 zu.2
        let y := addNoise (-9.81) 0.01 z.2
        ((x.1, y.1, z.1), y.2)
      else
        let x := addNoise 0 0.1 r.2
        let z := addNoise 0 0.1 x.2
        let y := addNoise (-9.81) 0.01 z.2
        ((x.1, y.1, z.1), y.2)
  | .resting =>
      let x := addNoise 0 0.05 s
      let y := addNoise (-9.81) 0.005 x.2
      let z := addNoise 0 0.05 y.2
      ((x.1, y.1, z.1), z.2)

/-- simulate_spo2: pattern-dependent base, 1% noise, clamp to [90,100],
rounded to 1 decimal. -/
def simulateSpo2 (t : ℝ) (p : Pattern) (s : RNG) : ℝ × RNG :=
  match p with
  | .exerciseSession =>
      if 0.3 < t / 10800 ∧ t / 10800 < 0.7 then
        let u := unif (-1) 1 s
        let n := addNoise (96 + u.1) 0.01 u.2
        (roundTo 1 (max 90 (min 100 n.1)), n.2)
      else
        let u := unif (-0.5) 0.5 s
        let n := addNoise (98 + u.1) 0.01 u.2
        (roundTo 1 (max 90 (min 100 n.1)), n.2)
  | _ =>
      let u := unif (-1) 1 s
      let n := addNoise (98 + u.1) 0.01 u.2
      (roundTo 1 (max 90 (min 100 n.1)), n.2)

/-- simulate_temperature: exercise past 30% of the 3h window raises the base
by up to 1.5 degrees; 0.5% noise, rounded to 2 decimals. -/
def simulateTemperature (t : ℝ) (p : Pattern) (s : RNG) : ℝ × RNG :=
  match p with
  | .exerciseSession =>
      if 0.3 < t / 10800 then
        let n := addNoise (36.5 + min 1.5 ((t / 10800 - 0.3) * 3)) 0.005 s
        (roundTo 2 n.1, n.2)
      else
        let n := addNoise 36.5 0.005 s
        (roundTo 2 n.1, n.2)
  | _ =>
      let n := addNoise 36.5 0.005 s
      (roundTo 2 n.1, n.2)

/-- simulate_load: pattern- and heart-rate-dependent load score. -/
def simulateLoad (t : ℝ) (hr : ℤ) (p : Pattern) (s : RNG) : ℤ × RNG :=
  match p with
  | .exerciseSession =>
      if 0.3 < t / 10800 ∧ t / 10800 < 0.7 then
        let r := randintD (-5) 5 s
        (min 100 (max 0 (truncZ (50 + ((hr : ℝ) - 100) * 0.5 + (r.1 : ℝ)))), r.2)
      else
        let r := randintD (-5) 5 s
        (max 0 (truncZ (20 + (r.1 : ℝ))), r.2)
  | .morningRoutine =>
      let r := randintD (-3) 3 s
      (max 0 (min 100 (truncZ (25 + ((hr : ℝ) - 70) * 0.3 + (r.1 : ℝ)))), r.2)
  | .resting =>
      let r := randintD (-3) 3 s
      (max 0 (truncZ (10 + (r.1 : ℝ))), r.2)

/-! ## Emitted record shapes, with ghost bookkeeping

Each channel's emitted record carries exactly the fields the source
appends to its data list.  The Aux wrapper adds ghost fields that exist
only for specification purposes: the true elapsed tick time t at which
the record was emitted, which error/corruption branch (if any) fired,
and for movement the pre-rounding axis values. -/

structure HRRec : Type where
  ts : ℝ
  bpm : ℤ
  conf : ℝ

structure HRAux : Type where
  t : ℝ
  err : Bool
  out : HRRec

structure MvRec : Type where
  ts : ℤ
  x : Option ℝ
  y : Option ℝ
  z : Option ℝ
  mag : Option ℝ

inductive MvCorrupt : Type
  | ok
  | nullAxis
  | fixed999
deriving DecidableEq

structure MvAux : Type where
  t : ℝ
  xp : ℝ
  yp : ℝ
  zp : ℝ
  corrupt : MvCorrupt
  out : MvRec

inductive SpQuality : Type
  | good
  | fair
  | poor
deriving DecidableEq

inductive SpErr : Type
  | noneE
  | low
  | high
deriving DecidableEq

structure SpRec : Type where
  time : ℤ
  spo2 : ℝ
  quality : SpQuality

structure SpAux : Type where
  t : ℝ
  err : SpErr
  out : SpRec

structure TpRec : Type where
  recordedAt : ℝ
  temp : ℝ
  ambient : ℝ

structure TpAux : Type where
  t : ℝ
  out : TpRec

inductive LdFmt : Type
  | isoNoMs
  | isoMs
  | slash
deriving DecidableEq

inductive LdActivity : Type
  | rest
  | walk
  | exercise
  | unknown
deriving DecidableEq

structure LdRec : Type where
  ts : ℝ
  fmt : LdFmt
  ms : Option ℤ
  load : ℤ
  activity : LdActivity
  hrDerived : Bool

structure LdAux : Type where
  t : ℝ
  out : LdRec

/-! ## Per-tick record construction, one function per channel -/

/-- Heart-rate record at tick t (generate_heart_rate_data loop body):
the reported timestamp applies the per-run clock drift to the true
elapsed time, then the simulated value and the error/confidence draws. -/
def hrMk (cfg : PatientConfig) (drift : ℝ) (t : ℝ) (s : RNG) : HRAux × RNG :=
  let ts := hrStart cfg + t * (1 + drift)
  let hm := simulateHeartRate t cfg.pattern s
  let r1 := rand1 hm.2
  if r1.1 < 0.008 then (⟨t, true, ⟨ts, -1, 0⟩⟩, r1.2)
  else
    let r2 := rand1 r1.2
    if r2.1 < 0.03 then
      let u := unif 0.2 0.5 r2.2
      (⟨t, false, ⟨ts, hm.1, roundTo 2 u.1⟩⟩, u.2)
    else
      let u := unif 0.85 0.99 r2.2
      (⟨t, false, ⟨ts, hm.1, roundTo 2 u.1⟩⟩, u.2)

/-- Movement record at tick t (generate_movement_data loop body). -/
def mvMk (cfg : PatientConfig) (t : ℝ) (s : RNG) : MvAux × RNG :=
  let ts := truncZ ((mvStart cfg + t) * 1000)
  let v := simulateMovementXYZ t cfg.pattern s
  let mag := Real.sqrt (v.1.1 ^ 2 + v.1.2.1 ^ 2 + v.1.2.2 ^ 2)
  let base : MvRec :=
    ⟨ts, some (roundTo 3 v.1.1), some (roundTo 3 v.1.2.1), some (roundTo 3 v.1.2.2),
      some (roundTo 3 mag)⟩
  let r1 := rand1 v.2
  if r1.1 < 0.004 then
    (⟨t, v.1.1, v.1.2.1, v.1.2.2, .nullAxis, { base with x := none, mag := none }⟩, r1.2)
  else
    let r2 := rand1 r1.2
    if r2.1 < 0.002 then
      (⟨t, v.1.1, v.1.2.1, v.1.2.2, .fixed999,
        ⟨ts, some 999.99, some 999.99, some 999.99, some 999.99⟩⟩, r2.2)
    else (⟨t, v.1.1, v.1.2.1, v.1.2.2, .ok, base⟩, r2.2)

/-- Blood-oxygen record at tick t (generate_blood_oxygen_data loop body):
quality is derived from the simulated value BEFORE the error branches,
which overwrite spo2 and force quality to poor. -/
def spMk (cfg : PatientConfig) (t : ℝ) (s : RNG) : SpAux × RNG :=
  let time := truncZ (spStart cfg + t)
  let sv := simulateSpo2 t cfg.pattern s
  let q := if (97 : ℝ) ≤ sv.1 then SpQuality.good
           else if (94 : ℝ) ≤ sv.1 then SpQuality.fair
           else SpQuality.poor
  let r1 := rand1 sv.2
  if r1.1 < 0.005 then
    let u := unif 65 84 r1.2
    (⟨t, .low, ⟨time, roundTo 1 u.1, .poor⟩⟩, u.2)
  else
    let r2 := rand1 r1.2
    if r2.1 < 0.003 then
      let u := unif 101 110 r2.2
      (⟨t, .high, ⟨time, roundTo 1 u.1, .poor⟩⟩, u.2)
    else (⟨t, .noneE, ⟨time, sv.1, q⟩⟩, r2.2)

/-- Temperature record at tick t (generate_temperature_data loop body);
the channel state is the unrounded ambient temperature. -/
def tpMk (cfg : PatientConfig) (t : ℝ) (amb : ℝ) (s : RNG) : TpAux × ℝ × RNG :=
  let ra := tpStart cfg + t
  let tv := simulateTemperature t cfg.pattern s
  let r1 := rand1 tv.2
  let tempAnd : ℝ × RNG :=
    if r1.1 < 0.015 then
      let u := unif 3 8 r1.2
      (roundTo 2 (tv.1 + u.1), u.2)
    else
      let r2 := rand1 r1.2
      if r2.1 < 0.01 then
        let u := unif 2 5 r2.2
        (roundTo 2 (tv.1 - u.1), u.2)
      else (tv.1, r2.2)
  let au := unif (-0.02) 0.02 tempAnd.2
  let amb2 := max 18 (min 28 (amb + au.1))
  (⟨t, ⟨ra, tempAnd.1, roundTo 1 amb2⟩⟩, amb2, au.2)

/-- Load record at tick t (generate_load_data loop body). -/
def ldMk (cfg : PatientConfig) (t : ℝ) (s : RNG) : LdAux × RNG :=
  let h := simulateHeartRate t cfg.pattern s
  let l := simulateLoad t h.1 cfg.pattern h.2
  let ts := ldStart cfg + t
  let r := rand1 l.2
  let fm : (LdFmt × Option ℤ) × RNG :=
    if r.1 < 0.3 then ((.isoNoMs, none), r.2)
    else if r.1 < 0.6 then
      let m := randintD 0 999 r.2
      ((.isoMs, some m.1), m.2)
    else ((.slash, none), r.2)
  let act := if l.1 < 20 then LdActivity.rest
             else if l.1 < 50 then LdActivity.walk
             else LdActivity.exercise
  let re := rand1 fm.2
  let la : ℤ × LdActivity := if re.1 < 0.015 then (-1, .unknown) else (l.1, act)
  let rh := rand1 re.2
  (⟨t, ⟨ts, fm.1.1, fm.1.2, la.1, la.2, if rh.1 < 0.7 then true else false⟩⟩, rh.2)

/-! ## The generic channel loop (the while-loop shared by all five
generators): gap suppression short-circuits the dropout draw, the
dropout draw suppresses the record, and the tick always advances by a
uniform step in the channel's range. -/

/-- is_in_gap of the source. -/
def inGap (t : ℝ) (gaps : List (ℝ × ℝ)) : Prop :=
  ∃ g ∈ gaps, g.1 ≤ t ∧ t < g.1 + g.2

/-- Static per-channel loop parameters plus the per-tick record builder. -/
structure ChanP (σ A : Type) : Type where
  dur : ℝ
  lo : ℝ
  hi : ℝ
  drop : ℝ
  gaps : List (ℝ × ℝ)
  mkR : ℝ → σ → RNG → A × σ × RNG

/-- The emitted records of one channel's while-loop, with fuel.  The fuel
is an upper bound on loop iterations; chanLoop_stable below shows the
output is independent of the fuel once it covers duration / lo steps,
which is the source's termination argument. -/
def chanLoop {σ A : Type} (P : ChanP σ A) : ℕ → ℝ → σ → RNG → List A
  | 0, _, _, _ => []
  | f + 1, t, c, s =>
    if t < P.dur then
      if inGap t P.gaps then
        chanLoop P f (t + (unif P.lo P.hi s).1) c (unif P.lo P.hi s).2
      else if (rand1 s).1 < P.drop then
        chanLoop P f (t + (unif P.lo P.hi (rand1 s).2).1) c (unif P.lo P.hi (rand1 s).2).2
      else
        (P.mkR t c (rand1 s).2).1 ::
          chanLoop P f (t + (unif P.lo P.hi (P.mkR t c (rand1 s).2).2.2).1)
            (P.mkR t c (rand1 s).2).2.1
            (unif P.lo P.hi (P.mkR t c (rand1 s).2).2.2).2
    else []

/-- The stream state after the channel's while-loop finishes (same
traversal as chanLoop, returning the advanced stream for the next
generator of the run). -/
def chanState {σ A : Type} (P : ChanP σ A) : ℕ → ℝ → σ → RNG → RNG
  | 0, _, _, s => s
  | f + 1, t, c, s =>
    if t < P.dur then
      if inGap t P.gaps then
        chanState P f (t + (unif P.lo P.hi s).1) c (unif P.lo P.hi s).2
      else if (rand1 s).1 < P.drop then
        chanState P f (t + (unif P.lo P.hi (rand1 s).2).1) c (unif P.lo P.hi (rand1 s).2).2
      else
        chanState P f (t + (unif P.lo P.hi (P.mkR t c (rand1 s).2).2.2).1)
          (P.mkR t c (rand1 s).2).2.1
          (unif P.lo P.hi (P.mkR t c (rand1 s).2).2.2).2
    else s

/-! ## The five per-sensor stream generators and the orchestrator -/

/-- Channel parameters for heart rate (duration, step range [0.85,1.15],
dropout 0.005, the patient's hr gap schedule). -/
def hrP (cfg : PatientConfig) (drift : ℝ) : ChanP Unit HRAux :=
  ⟨sessionDur cfg, 0.85, 1.15, 0.005, cfg.hrGaps,
    fun t _ s => ((hrMk cfg drift t s).1, (), (hrMk cfg drift t s).2)⟩

/-- Heart-rate aux run at a fixed drift (the loop after the drift draw). -/
def hrAuxListD (cfg : PatientConfig) (drift : ℝ) (s : RNG) (fuel : ℕ) : List HRAux :=
  chanLoop (hrP cfg drift) fuel 0 () s

/-- generate_heart_rate_data: one drift draw from ±0.0001, then the loop. -/
def hrAuxList (cfg : PatientConfig) (s : RNG) (fuel : ℕ) : List HRAux :=
  hrAuxListD cfg (unif (-0.0001) 0.0001 s).1 (unif (-0.0001) 0.0001 s).2 fuel

/-- The emitted heart-rate records (timestamp, bpm, confidence rows). -/
def hrData (cfg : PatientConfig) (s : RNG) (fuel : ℕ) : List HRRec :=
  (hrAuxList cfg s fuel).map HRAux.out

def hrFinal (cfg : PatientConfig) (s : RNG) (fuel : ℕ) : RNG :=
  chanState (hrP cfg (unif (-0.0001) 0.0001 s).1) fuel 0 () (unif (-0.0001) 0.0001 s).2

/-- Channel parameters for movement (step range [0.08,0.12], dropout 0.003). -/
def mvP (cfg : PatientConfig) : ChanP Unit MvAux :=
  ⟨sessionDur cfg, 0.08, 0.12, 0.003, cfg.mvGaps,
    fun t _ s => ((mvMk cfg t s).1, (), (mvMk cfg t s).2)⟩

def mvAuxList (cfg : PatientConfig) (s : RNG) (fuel : ℕ) : List MvAux :=
  chanLoop (mvP cfg) fuel 0 () s

def mvData (cfg : PatientConfig) (s : RNG) (fuel : ℕ) : List MvRec :=
  (mvAuxList cfg s fuel).map MvAux.out

def mvFinal (cfg : PatientConfig) (s : RNG) (fuel : ℕ) : RNG :=
  chanState (mvP cfg) fuel 0 () s

/-- Channel parameters for blood oxygen (step range [1.5,2.5], dropout 0.01). -/
def spP (cfg : PatientConfig) : ChanP Unit SpAux :=
  ⟨sessionDur cfg, 1.5, 2.5, 0.01, cfg.spGaps,
    fun t _ s => ((spMk cfg t s).1, (), (spMk cfg t s).2)⟩

def spAuxList (cfg : PatientConfig) (s : RNG) (fuel : ℕ) : List SpAux :=
  chanLoop (spP cfg) fuel 0 () s

def spData (cfg : PatientConfig) (s : RNG) (fuel : ℕ) : List SpRec :=
  (spAuxList cfg s fuel).map SpAux.out

def spFinal (cfg : PatientConfig) (s : RNG) (fuel : ℕ) : RNG :=
  chanState (spP cfg) fuel 0 () s

/-- Channel parameters for temperature (extended duration, step range
[8,14], dropout 0.015, ambient temperature as loop state). -/
def tpP (cfg : PatientConfig) : ChanP ℝ TpAux :=
  ⟨tpDur cfg, 8, 14, 0.015, cfg.tpGaps, fun t c s => tpMk cfg t c s⟩

/-- generate_temperature_data: ambient initialised to round(uniform(20,24),1)
before the loop. -/
def tpAuxList (cfg : PatientConfig) (s : RNG) (fuel : ℕ) : List TpAux :=
  chanLoop (tpP cfg) fuel 0 (roundTo 1 (unif 20 24 s).1) (unif 20 24 s).2

def tpData (cfg : PatientConfig) (s : RNG) (fuel : ℕ) : List TpRec :=
  (tpAuxList cfg s fuel).map TpAux.out

def tpFinal (cfg : PatientConfig) (s : RNG) (fuel : ℕ) : RNG :=
  chanState (tpP cfg) fuel 0 (roundTo 1 (unif 20 24 s).1) (unif 20 24 s).2

/-- Channel parameters for load (step range [4,6], dropout 0.012). -/
def ldP (cfg : PatientConfig) : ChanP Unit LdAux :=
  ⟨sessionDur cfg, 4, 6, 0.012, cfg.ldGaps,
    fun t _ s => ((ldMk cfg t s).1, (), (ldMk cfg t s).2)⟩

def ldAuxList (cfg : PatientConfig) (s : RNG) (fuel : ℕ) : List LdAux :=
  chanLoop (ldP cfg) fuel 0 () s

def ldData (cfg : PatientConfig) (s : RNG) (fuel : ℕ) : List LdRec :=
  (ldAuxList cfg s fuel).map LdAux.out

def ldFinal (cfg : PatientConfig) (s : RNG) (fuel : ℕ) : RNG :=
  chanState (ldP cfg) fuel 0 () s

/-- Fuel bound used by the orchestrator; chanLoop_stable shows any fuel at
least duration/lo covers the loop, and 200000 > 10800/0.08, the largest
steps-to-duration ratio any configured channel can need. -/
def fuelN : ℕ := 200000

structure PatientOut : Type where
  hr : List HRRec
  mv : List MvRec
  sp : List SpRec
  tp : List TpRec
  ld : List LdRec

/-- One patient of main(): the five generators run in source order, each
consuming the stream the previous one left. -/
def patientOut (cfg : PatientConfig) (s : RNG) : PatientOut × RNG :=
  let s1 := hrFinal cfg s fuelN
  let s2 := mvFinal cfg s1 fuelN
  let s3 := spFinal cfg s2 fuelN
  let s4 := tpFinal cfg s3 fuelN
  let s5 := ldFinal cfg s4 fuelN
  (⟨hrData cfg s fuelN, mvData cfg s1 fuelN, spData cfg s2 fuelN,
    tpData cfg s3 fuelN, ldData cfg s4 fuelN⟩, s5)

def runPatients : List PatientConfig → RNG → List PatientOut
  | [], _ => []
  | c :: rest, s => (patientOut c s).1 :: runPatients rest (patientOut c s).2

/-- main(): the full structured output of one generation run, a pure
function of the PRNG stream (the seed).  The persisted bytes are a
deterministic rendering of this value. -/
def generateAll (s : RNG) : List PatientOut := runPatients patientConfigs s

/-! ## Generic properties of the channel loop -/

lemma chanLoop_zero {σ A : Type} (P : ChanP σ A) (t : ℝ) (c : σ) (s : RNG) :
    chanLoop P 0 t c s = [] := rfl

lemma chanLoop_done {σ A : Type} (P : ChanP σ A) {t : ℝ} (h : ¬ t < P.dur) (c : σ) (s : RNG) :
    ∀ f, chanLoop P f t c s = []
  | 0 => rfl
  | f + 1 => by rw [chanLoop, if_neg h]

/-- Every emitted element comes from mkR at a tick t that is at or after
the loop's entry time, strictly before the duration and outside every gap. -/
lemma chanLoop_all {σ A : Type} (P : ChanP σ A) (Q : A → Prop) (t0 : ℝ)
    (h0 : 0 ≤ P.lo) (h1 : P.lo ≤ P.hi)
    (hmk : ∀ t c s, t0 ≤ t → t < P.dur → ¬ inGap t P.gaps → Q (P.mkR t c s).1) :
    ∀ (f : ℕ) (t : ℝ) (c : σ) (s : RNG), t0 ≤ t → ListAll Q (chanLoop P f t c s) := by
  intro f
  induction f with
  | zero => intro t c s _; exact trivial
  | succ n ih =>
    intro t c s ht
    by_cases hd : t < P.dur
    · rw [chanLoop, if_pos hd]
      have hstep : ∀ s2 : RNG, t ≤ t + (unif P.lo P.hi s2).1 := fun s2 =>
        le_add_of_nonneg_right (le_trans h0 (unif_ge h1 s2))
      by_cases hg : inGap t P.gaps
      · rw [if_pos hg]
        exact ih _ _ _ (le_trans ht (hstep s))
      · rw [if_neg hg]
        by_cases hdr : (rand1 s).1 < P.drop
        · rw [if_pos hdr]
          exact ih _ _ _ (le_trans ht (hstep _))
        · rw [if_neg hdr]
          exact ⟨hmk t c _ ht hd hg, ih _ _ _ (le_trans ht (hstep _))⟩
    · rw [chanLoop_done P hd]; exact trivial

/-- Specialisation: ghost tick times of the emitted records are bounded
below by the entry time. -/
lemma chanLoop_t_lb {σ A : Type} (P : ChanP σ A) (tOf : A → ℝ)
    (h0 : 0 ≤ P.lo) (h1 : P.lo ≤ P.hi)
    (hmk : ∀ t c s, tOf (P.mkR t c s).1 = t) (f : ℕ) (t : ℝ) (c : σ) (s : RNG) :
    ListAll (fun a => t ≤ tOf a) (chanLoop P f t c s) :=
  chanLoop_all P _ t h0 h1
    (fun t2 c2 s2 ht2 _ _ => by rw [hmk]; exact ht2) f t c s (le_refl t)

/-- Consecutive emitted records are at least one minimal step apart. -/
lemma chanLoop_chain {σ A : Type} (P : ChanP σ A) (tOf : A → ℝ)
    (h0 : 0 ≤ P.lo) (h1 : P.lo ≤ P.hi)
    (hmk : ∀ t c s, tOf (P.mkR t c s).1 = t) :
    ∀ (f : ℕ) (t : ℝ) (c : σ) (s : RNG),
      List.Chain' (fun a b => tOf a + P.lo ≤ tOf b) (chanLoop P f t c s) := by
  intro f
  induction f with
  | zero => intro t c s; exact List.chain'_nil
  | succ n ih =>
    intro t c s
    by_cases hd : t < P.dur
    · rw [chanLoop, if_pos hd]
      by_cases hg : inGap t P.gaps
      · rw [if_pos hg]; exact ih _ _ _
      · rw [if_neg hg]
        by_cases hdr : (rand1 s).1 < P.drop
        · rw [if_pos hdr]; exact ih _ _ _
        · rw [if_neg hdr]
          apply List.chain'_cons'.mpr
          refine ⟨?_, ih _ _ _⟩
          intro b hb
          have hmem : b ∈ chanLoop P n (t + (unif P.lo P.hi (P.mkR t c (rand1 s).2).2.2).1)
              (P.mkR t c (rand1 s).2).2.1 (unif P.lo P.hi (P.mkR t c (rand1 s).2).2.2).2 :=
            List.mem_of_mem_head? hb
          have hlb := listAll_iff_mem.mp (chanLoop_t_lb P tOf h0 h1 hmk n _ _ _) b hmem
          have hstep : P.lo ≤ (unif P.lo P.hi (P.mkR t c (rand1 s).2).2.2).1 := unif_ge h1 _
          rw [hmk]
          linarith
    · rw [chanLoop_done P hd]; exact List.chain'_nil

/-- Fuel beyond duration / lo steps does not change the output: the
while-loop terminates, so the emitted sequence is finite and well defined. -/
lemma chanLoop_stable {σ A : Type} (P : ChanP σ A)
    (hlo : 0 < P.lo) (h1 : P.lo ≤ P.hi) :
    ∀ (n : ℕ) (t : ℝ) (c : σ) (s : RNG), P.dur ≤ t + P.lo * n →
      ∀ (k : ℕ), chanLoop P (n + k) t c s = chanLoop P n t c s := by
  intro n
  induction n with
  | zero =>
    intro t c s hle k
    have hnd : ¬ t < P.dur := by
      push_cast at hle
      simp only [mul_zero, add_zero] at hle
      exact not_lt.mpr hle
    rw [chanLoop_done P hnd, chanLoop_zero]
  | succ n ih =>
    intro t c s hle k
    by_cases hd : t < P.dur
    · have hk : n + 1 + k = (n + k) + 1 := by omega
      rw [hk]
      have hnext : ∀ s2 : RNG, P.dur ≤ t + (unif P.lo P.hi s2).1 + P.lo * n := by
        intro s2
        have hstep : P.lo ≤ (unif P.lo P.hi s2).1 := unif_ge h1 s2
        push_cast at hle
        linarith
      rw [chanLoop, chanLoop]
      by_cases hg : inGap t P.gaps
      · rw [if_pos hd, if_pos hd, if_pos hg, if_pos hg]
        exact ih _ _ _ (hnext s) k
      · by_cases hdr : (rand1 s).1 < P.drop
        · rw [if_pos hd, if_pos hd, if_neg hg, if_neg hg, if_pos hdr, if_pos hdr]
          exact ih _ _ _ (hnext _) k
        · rw [if_pos hd, if_pos hd, if_neg hg, if_neg hg, if_neg hdr, if_neg hdr]
          rw [ih _ _ _ (hnext _) k]
    · rw [chanLoop_done P hd, chanLoop_done P hd]

/-- Two channels that differ only in how mkR renders the record (same
draws, same schedule) emit pointwise-related sequences. -/
lemma chanLoop_congr_map {σ A B : Type} (P : ChanP σ A) (Pb : ChanP σ B) (F : A → B)
    (hd : Pb.dur = P.dur) (hl : Pb.lo = P.lo) (hh : Pb.hi = P.hi)
    (hdr : Pb.drop = P.drop) (hg : Pb.gaps = P.gaps)
    (hmk : ∀ t c s, Pb.mkR t c s =
      (F (P.mkR t c s).1, (P.mkR t c s).2.1, (P.mkR t c s).2.2)) :
    ∀ (f : ℕ) (t : ℝ) (c : σ) (s : RNG),
      chanLoop Pb f t c s = (chanLoop P f t c s).map F := by
  intro f
  induction f with
  | zero => intro t c s; rfl
  | succ n ih =>
    intro t c s
    rw [chanLoop, chanLoop, hd, hl, hh, hdr, hg, hmk]
    by_cases h2 : t < P.dur
    · rw [if_pos h2, if_pos h2]
      by_cases h3 : inGap t P.gaps
      · rw [if_pos h3, if_pos h3, ih]
      · rw [if_neg h3, if_neg h3]
        by_cases h4 : (rand1 s).1 < P.drop
        · rw [if_pos h4, if_pos h4, ih]
        · rw [if_neg h4, if_neg h4, List.map_cons, ih]
    · rw [if_neg h2, if_neg h2, List.map_nil]

/-! ## Per-channel facts about the tick-level record builders -/

lemma simulateHeartRate_mem (t : ℝ) (p : Pattern) (s : RNG) :
    45 ≤ (simulateHeartRate t p s).1 ∧ (simulateHeartRate t p s).1 ≤ 185 := by
  unfold simulateHeartRate
  refine ⟨le_max_left _ _, max_le (by norm_num) (min_le_left _ _)⟩

lemma hrMk_t (cfg : PatientConfig) (drift t : ℝ) (s : RNG) :
    (hrMk cfg drift t s).1.t = t := by
  unfold hrMk
  dsimp only
  split_ifs <;> rfl

lemma hrMk_ts (cfg : PatientConfig) (drift t : ℝ) (s : RNG) :
    (hrMk cfg drift t s).1.out.ts = hrStart cfg + t * (1 + drift) := by
  unfold hrMk
  dsimp only
  split_ifs <;> rfl

/-- All of the C3 record invariants for one emitted heart-rate row. -/
def hrRecP (r : HRRec) : Prop :=
  (r.bpm = -1 ∨ (45 ≤ r.bpm ∧ r.bpm ≤ 185)) ∧
  (r.conf = 0 ↔ r.bpm = -1) ∧
  (r.bpm ≠ -1 → 0.2 ≤ r.conf ∧ r.conf ≤ 0.99)

lemma roundTo2_mem (a b : ℤ) (x : ℝ) (hax : (a : ℝ) / 100 ≤ x) (hxb : x ≤ (b : ℝ) / 100) :
    (a : ℝ) / 100 ≤ roundTo 2 x ∧ roundTo 2 x ≤ (b : ℝ) / 100 := by
  have h1 : (a : ℝ) ≤ x * 10 ^ 2 := by norm_num at hax ⊢; linarith
  have h2 : x * 10 ^ 2 ≤ (b : ℝ) := by norm_num at hxb ⊢; linarith
  have hg := roundTo_ge h1
  have hl := roundTo_le h2
  norm_num at hg hl ⊢
  exact ⟨hg, hl⟩

/-- Confidence drawn by the low-confidence branch: round(uniform(0.2,0.5),2). -/
lemma conf_mem_low (s2 : RNG) :
    0.2 ≤ roundTo 2 (unif 0.2 0.5 s2).1 ∧ roundTo 2 (unif 0.2 0.5 s2).1 ≤ 0.99 := by
  have h1 : (0.2 : ℝ) ≤ (unif 0.2 0.5 s2).1 := unif_ge (by norm_num) s2
  have h2 : (unif 0.2 0.5 s2).1 < 0.5 := unif_lt (by norm_num) s2
  have := roundTo2_mem 20 50 (unif 0.2 0.5 s2).1 (by push_cast; linarith) (by push_cast; linarith)
  push_cast at this
  constructor <;> linarith [this.1, this.2]

/-- Confidence drawn by the normal branch: round(uniform(0.85,0.99),2). -/
lemma conf_mem_high (s2 : RNG) :
    0.2 ≤ roundTo 2 (unif 0.85 0.99 s2).1 ∧ roundTo 2 (unif 0.85 0.99 s2).1 ≤ 0.99 := by
  have h1 : (0.85 : ℝ) ≤ (unif 0.85 0.99 s2).1 := unif_ge (by norm_num) s2
  have h2 : (unif 0.85 0.99 s2).1 < 0.99 := unif_lt (by norm_num) s2
  have := roundTo2_mem 85 99 (unif 0.85 0.99 s2).1 (by push_cast; linarith) (by push_cast; linarith)
  push_cast at this
  constructor <;> linarith [this.1, this.2]

lemma hrMk_recP (cfg : PatientConfig) (drift t : ℝ) (s : RNG) :
    hrRecP (hrMk cfg drift t s).1.out := by
  obtain ⟨h45, h185⟩ := simulateHeartRate_mem t cfg.pattern s
  have hne : (simulateHeartRate t cfg.pattern s).1 ≠ -1 := by omega
  unfold hrMk hrRecP
  dsimp only
  split_ifs with h1 h2
  · exact ⟨Or.inl rfl, by simp, fun h => absurd rfl h⟩
  · obtain ⟨hc1, hc2⟩ := conf_mem_low (rand1 (rand1 (simulateHeartRate t cfg.pattern s).2).2).2
    refine ⟨Or.inr ⟨h45, h185⟩, iff_of_false (by simp only []; intro h0; rw [h0] at hc1; norm_num at hc1) hne,
      fun _ => ⟨hc1, hc2⟩⟩
  · obtain ⟨hc1, hc2⟩ := conf_mem_high (rand1 (rand1 (simulateHeartRate t cfg.pattern s).2).2).2
    refine ⟨Or.inr ⟨h45, h185⟩, iff_of_false (by simp only []; intro h0; rw [h0] at hc1; norm_num at hc1) hne,
      fun _ => ⟨hc1, hc2⟩⟩

lemma roundTo1_mem (a b : ℤ) (x : ℝ) (hax : (a : ℝ) / 10 ≤ x) (hxb : x ≤ (b : ℝ) / 10) :
    (a : ℝ) / 10 ≤ roundTo 1 x ∧ roundTo 1 x ≤ (b : ℝ) / 10 := by
  have h1 : (a : ℝ) ≤ x * 10 ^ 1 := by norm_num at hax ⊢; linarith
  have h2 : x * 10 ^ 1 ≤ (b : ℝ) := by norm_num at hxb ⊢; linarith
  have hg := roundTo_ge h1
  have hl := roundTo_le h2
  norm_num at hg hl ⊢
  exact ⟨hg, hl⟩

lemma round1_clamp_mem (x : ℝ) :
    90 ≤ roundTo 1 (max 90 (min 100 x)) ∧ roundTo 1 (max 90 (min 100 x)) ≤ 100 := by
  have h90 : (90 : ℝ) ≤ max 90 (min 100 x) := le_max_left _ _
  have h100 : max 90 (min 100 x) ≤ 100 := max_le (by norm_num) (min_le_left _ _)
  have := roundTo1_mem 900 1000 (max 90 (min 100 x)) (by push_cast; linarith) (by push_cast; linarith)
  push_cast at this
  constructor <;> linarith [this.1, this.2]

lemma simulateSpo2_mem (t : ℝ) (p : Pattern) (s : RNG) :
    90 ≤ (simulateSpo2 t p s).1 ∧ (simulateSpo2 t p s).1 ≤ 100 := by
  cases p <;> unfold simulateSpo2 <;> dsimp only
  · exact round1_clamp_mem _
  · split_ifs <;> exact round1_clamp_mem _
  · exact round1_clamp_mem _

lemma spMk_t (cfg : PatientConfig) (t : ℝ) (s : RNG) : (spMk cfg t s).1.t = t := by
  unfold spMk
  dsimp only
  split_ifs <;> rfl

lemma spMk_time (cfg : PatientConfig) (t : ℝ) (s : RNG) :
    (spMk cfg t s).1.out.time = truncZ (spStart cfg + t) := by
  unfold spMk
  dsimp only
  split_ifs <;> rfl

/-- All of the (amended) C8 record invariants for one emitted blood-oxygen
row: quality thresholds hold for uncorrupted rows, error rows are always
poor, and out-of-range values only come from error rows. -/
def spAuxP (a : SpAux) : Prop :=
  (a.err ≠ .noneE → a.out.quality = .poor) ∧
  (a.out.spo2 < 94 → a.out.quality = .poor) ∧
  ((a.out.spo2 < 90 ∨ 100 < a.out.spo2) → a.err ≠ .noneE ∧ a.out.quality = .poor) ∧
  (a.err = .noneE →
    (90 ≤ a.out.spo2 ∧ a.out.spo2 ≤ 100) ∧
    (a.out.quality = .good ↔ 97 ≤ a.out.spo2) ∧
    (a.out.quality = .fair ↔ (94 ≤ a.out.spo2 ∧ a.out.spo2 < 97)))

lemma spMk_auxP (cfg : PatientConfig) (t : ℝ) (s : RNG) : spAuxP (spMk cfg t s).1 := by
  obtain ⟨hm1, hm2⟩ := simulateSpo2_mem t cfg.pattern s
  unfold spMk spAuxP
  dsimp only
  split_ifs with h1 h2 h97 h94
  · -- low error branch
    dsimp only
    exact ⟨fun _ => rfl, fun _ => rfl, fun _ => ⟨by decide, rfl⟩, fun h => absurd h (by decide)⟩
  · -- high error branch
    dsimp only
    exact ⟨fun _ => rfl, fun _ => rfl, fun _ => ⟨by decide, rfl⟩, fun h => absurd h (by decide)⟩
  · -- no error, quality good (spo2 at least 97)
    dsimp only
    refine ⟨fun h => absurd rfl h, fun h => by linarith, fun h => by rcases h with h | h <;> linarith,
      fun _ => ⟨⟨hm1, hm2⟩, iff_of_true rfl h97, iff_of_false (by decide) ?_⟩⟩
    rintro ⟨_, hlt⟩
    linarith
  · -- no error, quality fair (spo2 in [94,97))
    dsimp only
    exact ⟨fun h => absurd rfl h, fun h => by linarith,
      fun h => by rcases h with h | h <;> linarith,
      fun _ => ⟨⟨hm1, hm2⟩, iff_of_false (by decide) h97,
        iff_of_true rfl ⟨h94, lt_of_not_le h97⟩⟩⟩
  · -- no error, quality poor (spo2 below 94)
    dsimp only
    refine ⟨fun h => absurd rfl h, fun _ => rfl,
      fun h => by rcases h with h | h <;> linarith,
      fun _ => ⟨⟨hm1, hm2⟩, iff_of_false (by decide) h97, iff_of_false (by decide) ?_⟩⟩
    rintro ⟨hge, _⟩
    exact h94 hge

lemma mvMk_t (cfg : PatientConfig) (t : ℝ) (s : RNG) : (mvMk cfg t s).1.t = t := by
  unfold mvMk
  dsimp only
  split_ifs <;> rfl

lemma mvMk_ts (cfg : PatientConfig) (t : ℝ) (s : RNG) :
    (mvMk cfg t s).1.out.ts = truncZ ((mvStart cfg + t) * 1000) := by
  unfold mvMk
  dsimp only
  split_ifs <;> rfl

/-- The (amended) C7 invariant for one emitted movement record: when no
corruption branch fired, the emitted axes are the 3-decimal roundings of
the pre-rounding axis values and the emitted magnitude is the 3-decimal
rounding of the Euclidean norm of those pre-rounding values. -/
def mvAuxP (a : MvAux) : Prop :=
  a.corrupt = .ok →
    a.out.x = some (roundTo 3 a.xp) ∧ a.out.y = some (roundTo 3 a.yp) ∧
    a.out.z = some (roundTo 3 a.zp) ∧
    a.out.mag = some (roundTo 3 (Real.sqrt (a.xp ^ 2 + a.yp ^ 2 + a.zp ^ 2)))

lemma mvMk_auxP (cfg : PatientConfig) (t : ℝ) (s : RNG) : mvAuxP (mvMk cfg t s).1 := by
  unfold mvMk mvAuxP
  dsimp only
  split_ifs
  · intro h; exact absurd h (by decide)
  · intro h; exact absurd h (by decide)
  · intro _; exact ⟨rfl, rfl, rfl, rfl⟩

lemma tpMk_t (cfg : PatientConfig) (t amb : ℝ) (s : RNG) : (tpMk cfg t amb s).1.t = t := rfl

lemma ldMk_t (cfg : PatientConfig) (t : ℝ) (s : RNG) : (ldMk cfg t s).1.t = t := rfl

/-- Rounding the axes moves the Euclidean norm by at most sqrt 3 / 2000;
together with the rounding of the magnitude itself, the emitted magnitude
is within 0.0015 of the norm of the emitted (rounded) axes. -/
lemma norm3_round_close (x y z : ℝ) :
    |roundTo 3 (Real.sqrt (x ^ 2 + y ^ 2 + z ^ 2)) -
      Real.sqrt (roundTo 3 x ^ 2 + roundTo 3 y ^ 2 + roundTo 3 z ^ 2)| ≤ 0.0015 := by
  have hmag := abs_roundTo_sub_le 3 (Real.sqrt (x ^ 2 + y ^ 2 + z ^ 2))
  have hx := abs_roundTo_sub_le 3 x
  have hy := abs_roundTo_sub_le 3 y
  have hz := abs_roundTo_sub_le 3 z
  norm_num at hmag hx hy hz
  set u : EuclideanSpace ℝ (Fin 3) := ![x, y, z] with hu
  set v : EuclideanSpace ℝ (Fin 3) := ![roundTo 3 x, roundTo 3 y, roundTo 3 z] with hv
  have hnu : Real.sqrt (x ^ 2 + y ^ 2 + z ^ 2) = norm u := by
    rw [EuclideanSpace.norm_eq]
    congr 1
    rw [Fin.sum_univ_three]
    simp [hu, sq_abs]
  have hnv : Real.sqrt (roundTo 3 x ^ 2 + roundTo 3 y ^ 2 + roundTo 3 z ^ 2) = norm v := by
    rw [EuclideanSpace.norm_eq]
    congr 1
    rw [Fin.sum_univ_three]
    simp [hv, sq_abs]
  have hdiff : |norm u - norm v| ≤ norm (u - v) := abs_norm_sub_norm_le u v
  have hnuv : norm (u - v) = Real.sqrt ((x - roundTo 3 x) ^ 2 + (y - roundTo 3 y) ^ 2 +
      (z - roundTo 3 z) ^ 2) := by
    rw [EuclideanSpace.norm_eq]
    congr 1
    rw [Fin.sum_univ_three]
    simp [hu, hv, sq_abs]
  have hd2 : (x - roundTo 3 x) ^ 2 + (y - roundTo 3 y) ^ 2 + (z - roundTo 3 z) ^ 2 ≤
      3 / 4000000 := by
    have hx2 : (x - roundTo 3 x) ^ 2 ≤ (1 / 2000) ^ 2 := by
      rw [← sq_abs]
      have : |x - roundTo 3 x| = |roundTo 3 x - x| := abs_sub_comm _ _
      rw [this]
      nlinarith [abs_nonneg (roundTo 3 x - x)]
    have hy2 : (y - roundTo 3 y) ^ 2 ≤ (1 / 2000) ^ 2 := by
      rw [← sq_abs, abs_sub_comm]
      nlinarith [abs_nonneg (roundTo 3 y - y)]
    have hz2 : (z - roundTo 3 z) ^ 2 ≤ (1 / 2000) ^ 2 := by
      rw [← sq_abs, abs_sub_comm]
      nlinarith [abs_nonneg (roundTo 3 z - z)]
    norm_num at hx2 hy2 hz2 ⊢
    linarith
  have hsq : Real.sqrt ((x - roundTo 3 x) ^ 2 + (y - roundTo 3 y) ^ 2 +
      (z - roundTo 3 z) ^ 2) ≤ 0.00087 := by
    have hle := Real.sqrt_le_sqrt hd2
    have hnn : (0 : ℝ) ≤ 3 / 4000000 := by norm_num
    have hss := Real.sq_sqrt hnn
    have hpos := Real.sqrt_nonneg (3 / 4000000 : ℝ)
    nlinarith [hle, hss, hpos]
  have hmag2 : |roundTo 3 (norm u) - norm u| ≤ 1 / 2000 := by rw [← hnu]; exact hmag
  have hdiff2 : |norm u - norm v| ≤ 0.00087 := by
    rw [hnuv] at hdiff
    linarith
  calc |roundTo 3 (Real.sqrt (x ^ 2 + y ^ 2 + z ^ 2)) -
      Real.sqrt (roundTo 3 x ^ 2 + roundTo 3 y ^ 2 + roundTo 3 z ^ 2)|
      = |roundTo 3 (norm u) - norm v| := by rw [hnu, hnv]
    _ ≤ |roundTo 3 (norm u) - norm u| + |norm u - norm v| := abs_sub_le _ _ _
    _ ≤ 1 / 2000 + 0.00087 := add_le_add hmag2 hdiff2
    _ ≤ 0.0015 := by norm_num

/-! ## Bridging the generic loop lemmas to the five channels -/

lemma chanLoop_exists_stable {σ A : Type} (P : ChanP σ A) (hlo : 0 < P.lo) (h1 : P.lo ≤ P.hi)
    (t : ℝ) (c : σ) (s : RNG) :
    ∃ N : ℕ, ∀ f1 f2 : ℕ, N ≤ f1 → N ≤ f2 →
      chanLoop P f1 t c s = chanLoop P f2 t c s := by
  refine ⟨⌈(P.dur - t) / P.lo⌉₊, fun f1 f2 hf1 hf2 => ?_⟩
  have hbound : P.dur ≤ t + P.lo * ⌈(P.dur - t) / P.lo⌉₊ := by
    have hc := Nat.le_ceil ((P.dur - t) / P.lo)
    have hm := mul_le_mul_of_nonneg_right hc hlo.le
    rw [div_mul_cancel₀ _ (ne_of_gt hlo)] at hm
    linarith [hm]
  have e1 : chanLoop P f1 t c s = chanLoop P ⌈(P.dur - t) / P.lo⌉₊ t c s := by
    obtain ⟨k, rfl⟩ : ∃ k, f1 = ⌈(P.dur - t) / P.lo⌉₊ + k :=
      ⟨f1 - ⌈(P.dur - t) / P.lo⌉₊, by omega⟩
    exact chanLoop_stable P hlo h1 _ t c s hbound k
  have e2 : chanLoop P f2 t c s = chanLoop P ⌈(P.dur - t) / P.lo⌉₊ t c s := by
    obtain ⟨k, rfl⟩ : ∃ k, f2 = ⌈(P.dur - t) / P.lo⌉₊ + k :=
      ⟨f2 - ⌈(P.dur - t) / P.lo⌉₊, by omega⟩
    exact chanLoop_stable P hlo h1 _ t c s hbound k
  rw [e1, e2]

lemma hrD_all (cfg : PatientConfig) (drift : ℝ) (s : RNG) (fuel : ℕ) (Q : HRAux → Prop)
    (hmk : ∀ (t : ℝ) (s2 : RNG), 0 ≤ t → t < sessionDur cfg → ¬ inGap t cfg.hrGaps →
      Q (hrMk cfg drift t s2).1) :
    ListAll Q (hrAuxListD cfg drift s fuel) :=
  chanLoop_all (hrP cfg drift) Q 0 (by show (0:ℝ) ≤ 0.85; norm_num) (by show (0.85:ℝ) ≤ 1.15; norm_num)
    (fun t c s2 ht hd hg => hmk t s2 ht hd hg) fuel 0 () s (le_refl 0)

lemma mv_all (cfg : PatientConfig) (s : RNG) (fuel : ℕ) (Q : MvAux → Prop)
    (hmk : ∀ (t : ℝ) (s2 : RNG), 0 ≤ t → t < sessionDur cfg → ¬ inGap t cfg.mvGaps →
      Q (mvMk cfg t s2).1) :
    ListAll Q (mvAuxList cfg s fuel) :=
  chanLoop_all (mvP cfg) Q 0 (by show (0:ℝ) ≤ 0.08; norm_num) (by show (0.08:ℝ) ≤ 0.12; norm_num)
    (fun t c s2 ht hd hg => hmk t s2 ht hd hg) fuel 0 () s (le_refl 0)

lemma sp_all (cfg : PatientConfig) (s : RNG) (fuel : ℕ) (Q : SpAux → Prop)
    (hmk : ∀ (t : ℝ) (s2 : RNG), 0 ≤ t → t < sessionDur cfg → ¬ inGap t cfg.spGaps →
      Q (spMk cfg t s2).1) :
    ListAll Q (spAuxList cfg s fuel) :=
  chanLoop_all (spP cfg) Q 0 (by show (0:ℝ) ≤ 1.5; norm_num) (by show (1.5:ℝ) ≤ 2.5; norm_num)
    (fun t c s2 ht hd hg => hmk t s2 ht hd hg) fuel 0 () s (le_refl 0)

lemma tp_all (cfg : PatientConfig) (s : RNG) (fuel : ℕ) (Q : TpAux → Prop)
    (hmk : ∀ (t c : ℝ) (s2 : RNG), 0 ≤ t → t < tpDur cfg → ¬ inGap t cfg.tpGaps →
      Q (tpMk cfg t c s2).1) :
    ListAll Q (tpAuxList cfg s fuel) :=
  chanLoop_all (tpP cfg) Q 0 (by show (0:ℝ) ≤ 8; norm_num) (by show (8:ℝ) ≤ 14; norm_num)
    (fun t c s2 ht hd hg => hmk t c s2 ht hd hg) fuel 0 _ (unif 20 24 s).2 (le_refl 0)

lemma ld_all (cfg : PatientConfig) (s : RNG) (fuel : ℕ) (Q : LdAux → Prop)
    (hmk : ∀ (t : ℝ) (s2 : RNG), 0 ≤ t → t < sessionDur cfg → ¬ inGap t cfg.ldGaps →
      Q (ldMk cfg t s2).1) :
    ListAll Q (ldAuxList cfg s fuel) :=
  chanLoop_all (ldP cfg) Q 0 (by show (0:ℝ) ≤ 4; norm_num) (by show (4:ℝ) ≤ 6; norm_num)
    (fun t c s2 ht hd hg => hmk t s2 ht hd hg) fuel 0 () s (le_refl 0)

lemma hrD_chain (cfg : PatientConfig) (drift : ℝ) (s : RNG) (fuel : ℕ) :
    List.Chain' (fun a b : HRAux => a.t + 0.85 ≤ b.t) (hrAuxListD cfg drift s fuel) :=
  chanLoop_chain (hrP cfg drift) HRAux.t (by show (0:ℝ) ≤ 0.85; norm_num) (by show (0.85:ℝ) ≤ 1.15; norm_num)
    (fun t c s2 => hrMk_t cfg drift t s2) fuel 0 () s

lemma mv_chain (cfg : PatientConfig) (s : RNG) (fuel : ℕ) :
    List.Chain' (fun a b : MvAux => a.t + 0.08 ≤ b.t) (mvAuxList cfg s fuel) :=
  chanLoop_chain (mvP cfg) MvAux.t (by show (0:ℝ) ≤ 0.08; norm_num) (by show (0.08:ℝ) ≤ 0.12; norm_num)
    (fun t c s2 => mvMk_t cfg t s2) fuel 0 () s

lemma sp_chain (cfg : PatientConfig) (s : RNG) (fuel : ℕ) :
    List.Chain' (fun a b : SpAux => a.t + 1.5 ≤ b.t) (spAuxList cfg s fuel) :=
  chanLoop_chain (spP cfg) SpAux.t (by show (0:ℝ) ≤ 1.5; norm_num) (by show (1.5:ℝ) ≤ 2.5; norm_num)
    (fun t c s2 => spMk_t cfg t s2) fuel 0 () s

lemma tp_chain (cfg : PatientConfig) (s : RNG) (fuel : ℕ) :
    List.Chain' (fun a b : TpAux => a.t + 8 ≤ b.t) (tpAuxList cfg s fuel) :=
  chanLoop_chain (tpP cfg) TpAux.t (by show (0:ℝ) ≤ 8; norm_num) (by show (8:ℝ) ≤ 14; norm_num)
    (fun t c s2 => tpMk_t cfg t c s2) fuel 0 _ (unif 20 24 s).2

lemma ld_chain (cfg : PatientConfig) (s : RNG) (fuel : ℕ) :
    List.Chain' (fun a b : LdAux => a.t + 4 ≤ b.t) (ldAuxList cfg s fuel) :=
  chanLoop_chain (ldP cfg) LdAux.t (by show (0:ℝ) ≤ 4; norm_num) (by show (4:ℝ) ≤ 6; norm_num)
    (fun t c s2 => ldMk_t cfg t s2) fuel 0 () s

lemma chain_imp_all {α : Type} {R S : α → α → Prop} {Q : α → Prop}
    (h : ∀ a b, Q a → Q b → R a b → S a b) :
    ∀ {l : List α}, List.Chain' R l → ListAll Q l → List.Chain' S l
  | [] => fun _ _ => List.chain'_nil
  | [a] => fun _ _ => List.chain'_singleton a
  | a :: b :: l => fun hc hq => by
    rw [List.chain'_cons] at hc ⊢
    exact ⟨h a b hq.1 hq.2.1 hc.1, chain_imp_all h hc.2 hq.2⟩

lemma gapFree_of_not_inGap {t : ℝ} {gaps : List (ℝ × ℝ)} (h : ¬ inGap t gaps) :
    ∀ g ∈ gaps, ¬ (g.1 ≤ t ∧ t < g.1 + g.2) :=
  fun g hg hc => h ⟨g, hg, hc⟩

/-! ## The claims -/

/-- C2: for every channel, every patient configuration, every configured
gap (start, duration) of that channel and every emitted record of that
channel, the record's true elapsed tick time does not lie in
[start, start + duration). -/
theorem spec_C2_gap_exclusion (cfg : PatientConfig) (s : RNG) (fuel : ℕ) :
    ListAll (fun a => ∀ g ∈ cfg.hrGaps, ¬ (g.1 ≤ a.t ∧ a.t < g.1 + g.2)) (hrAuxList cfg s fuel) ∧
    ListAll (fun a => ∀ g ∈ cfg.mvGaps, ¬ (g.1 ≤ a.t ∧ a.t < g.1 + g.2)) (mvAuxList cfg s fuel) ∧
    ListAll (fun a => ∀ g ∈ cfg.spGaps, ¬ (g.1 ≤ a.t ∧ a.t < g.1 + g.2)) (spAuxList cfg s fuel) ∧
    ListAll (fun a => ∀ g ∈ cfg.tpGaps, ¬ (g.1 ≤ a.t ∧ a.t < g.1 + g.2)) (tpAuxList cfg s fuel) ∧
    ListAll (fun a => ∀ g ∈ cfg.ldGaps, ¬ (g.1 ≤ a.t ∧ a.t < g.1 + g.2)) (ldAuxList cfg s fuel) := by
  refine ⟨?_, ?_, ?_, ?_, ?_⟩
  · exact hrD_all cfg _ _ fuel _
      (fun t s2 _ _ hg => by rw [hrMk_t]; exact gapFree_of_not_inGap hg)
  · exact mv_all cfg s fuel _
      (fun t s2 _ _ hg => by rw [mvMk_t]; exact gapFree_of_not_inGap hg)
  · exact sp_all cfg s fuel _
      (fun t s2 _ _ hg => by rw [spMk_t]; exact gapFree_of_not_inGap hg)
  · exact tp_all cfg s fuel _
      (fun t c s2 _ _ hg => by rw [tpMk_t]; exact gapFree_of_not_inGap hg)
  · exact ld_all cfg s fuel _
      (fun t s2 _ _ hg => by rw [ldMk_t]; exact gapFree_of_not_inGap hg)

/-- C3: every emitted heart-rate record has bpm = -1 (the error sentinel)
or an integer bpm in [45,185]; confidence is 0 exactly when bpm = -1 and
lies in [0.2, 0.99] otherwise. -/
theorem spec_C3_hr_record_ranges (cfg : PatientConfig) (s : RNG) (fuel : ℕ) :
    ListAll hrRecP (hrData cfg s fuel) := by
  rw [hrData, listAll_map]
  exact hrD_all cfg _ _ fuel _ (fun t s2 _ _ _ => hrMk_recP cfg _ t s2)

/-- C9: for every channel and every patient configuration, every emitted
record's true elapsed time is strictly below the channel's configured
duration, elapsed time strictly increases from record to record, and the
emitted sequence is finite: it is unchanged once the fuel covers the
loop's maximal number of steps. -/
theorem spec_C9_bounded_progress (cfg : PatientConfig) (s : RNG) (fuel : ℕ) :
    (ListAll (fun a => a.t < sessionDur cfg) (hrAuxList cfg s fuel) ∧
      List.Chain' (fun a b : HRAux => a.t < b.t) (hrAuxList cfg s fuel) ∧
      ∃ N, ∀ f1 f2, N ≤ f1 → N ≤ f2 → hrAuxList cfg s f1 = hrAuxList cfg s f2) ∧
    (ListAll (fun a => a.t < sessionDur cfg) (mvAuxList cfg s fuel) ∧
      List.Chain' (fun a b : MvAux => a.t < b.t) (mvAuxList cfg s fuel) ∧
      ∃ N, ∀ f1 f2, N ≤ f1 → N ≤ f2 → mvAuxList cfg s f1 = mvAuxList cfg s f2) ∧
    (ListAll (fun a => a.t < sessionDur cfg) (spAuxList cfg s fuel) ∧
      List.Chain' (fun a b : SpAux => a.t < b.t) (spAuxList cfg s fuel) ∧
      ∃ N, ∀ f1 f2, N ≤ f1 → N ≤ f2 → spAuxList cfg s f1 = spAuxList cfg s f2) ∧
    (ListAll (fun a => a.t < tpDur cfg) (tpAuxList cfg s fuel) ∧
      List.Chain' (fun a b : TpAux => a.t < b.t) (tpAuxList cfg s fuel) ∧
      ∃ N, ∀ f1 f2, N ≤ f1 → N ≤ f2 → tpAuxList cfg s f1 = tpAuxList cfg s f2) ∧
    (ListAll (fun a => a.t < sessionDur cfg) (ldAuxList cfg s fuel) ∧
      List.Chain' (fun a b : LdAux => a.t < b.t) (ldAuxList cfg s fuel) ∧
      ∃ N, ∀ f1 f2, N ≤ f1 → N ≤ f2 → ldAuxList cfg s f1 = ldAuxList cfg s f2) := by
  refine ⟨⟨?_, ?_, ?_⟩, ⟨?_, ?_, ?_⟩, ⟨?_, ?_, ?_⟩, ⟨?_, ?_, ?_⟩, ⟨?_, ?_, ?_⟩⟩
  · exact hrD_all cfg _ _ fuel _ (fun t s2 _ hd _ => by rw [hrMk_t]; exact hd)
  · exact List.Chain'.imp (fun a b h => by linarith) (hrD_chain cfg _ _ fuel)
  · exact chanLoop_exists_stable (hrP cfg _) (by show (0:ℝ) < 0.85; norm_num) (by show (0.85:ℝ) ≤ 1.15; norm_num) 0 () _
  · exact mv_all cfg s fuel _ (fun t s2 _ hd _ => by rw [mvMk_t]; exact hd)
  · exact List.Chain'.imp (fun a b h => by linarith) (mv_chain cfg s fuel)
  · exact chanLoop_exists_stable (mvP cfg) (by show (0:ℝ) < 0.08; norm_num) (by show (0.08:ℝ) ≤ 0.12; norm_num) 0 () s
  · exact sp_all cfg s fuel _ (fun t s2 _ hd _ => by rw [spMk_t]; exact hd)
  · exact List.Chain'.imp (fun a b h => by linarith) (sp_chain cfg s fuel)
  · exact chanLoop_exists_stable (spP cfg) (by show (0:ℝ) < 1.5; norm_num) (by show (1.5:ℝ) ≤ 2.5; norm_num) 0 () s
  · exact tp_all cfg s fuel _ (fun t c s2 _ hd _ => by rw [tpMk_t]; exact hd)
  · exact List.Chain'.imp (fun a b h => by linarith) (tp_chain cfg s fuel)
  · exact chanLoop_exists_stable (tpP cfg) (by show (0:ℝ) < 8; norm_num) (by show (8:ℝ) ≤ 14; norm_num) 0 _ _
  · exact ld_all cfg s fuel _ (fun t s2 _ hd _ => by rw [ldMk_t]; exact hd)
  · exact List.Chain'.imp (fun a b h => by linarith) (ld_chain cfg s fuel)
  · exact chanLoop_exists_stable (ldP cfg) (by show (0:ℝ) < 4; norm_num) (by show (4:ℝ) ≤ 6; norm_num) 0 () s

/-- All-zero oracle stream, used as a concrete run input. -/
def zeroStream : RNG := fun _ => 0

/-- C1: generation is a pure function of the seeded PRNG stream: two runs
of the full generator (all patients, all five channels) on the same seed
stream produce identical structured output, hence byte-identical files
once rendered. -/
theorem spec_C1_determinism (s1 s2 : RNG) (h : s1 = s2) :
    generateAll s1 = generateAll s2 := by rw [h]

theorem spec_C1_witness : generateAll zeroStream = generateAll zeroStream :=
  spec_C1_determinism zeroStream zeroStream rfl

lemma truncZ_intCast (n : ℤ) : truncZ (n : ℝ) = n := by
  unfold truncZ
  split_ifs
  · exact Int.floor_intCast n
  · exact Int.ceil_intCast n

lemma truncZ_nonpos {x : ℝ} (h : x ≤ 0) : truncZ x ≤ 0 := by
  unfold truncZ
  split_ifs with h0
  · have hx : x = 0 := le_antisymm h h0
    rw [hx]
    simp
  · exact Int.ceil_le.mpr (by exact_mod_cast h)

lemma sessionDur_nonpos {cfg : PatientConfig} (h : cfg.durationHours ≤ 0) :
    sessionDur cfg ≤ 0 := by
  unfold sessionDur
  have h2 : cfg.durationHours * 3600 ≤ 0 := by nlinarith
  exact_mod_cast truncZ_nonpos h2

/-- C4 (amended): the program performs no configuration validation and
reports no error: a non-positive configured duration makes the four
session-length channels silently emit nothing at all (the temperature
channel, whose duration is extended by the offset magnitude plus 600
seconds, can still emit records), and the tick step ranges are hardcoded
positive constants, so a stalling step range cannot be configured. -/
theorem spec_C4_no_validation (cfg : PatientConfig) (h : cfg.durationHours ≤ 0)
    (s : RNG) (fuel : ℕ) :
    hrAuxList cfg s fuel = [] ∧ mvAuxList cfg s fuel = [] ∧
    spAuxList cfg s fuel = [] ∧ ldAuxList cfg s fuel = [] := by
  have hnd : ¬ (0 : ℝ) < sessionDur cfg := not_lt.mpr (sessionDur_nonpos h)
  exact ⟨chanLoop_done _ hnd () _ fuel, chanLoop_done _ hnd () s fuel,
    chanLoop_done _ hnd () s fuel, chanLoop_done _ hnd () s fuel⟩

/-- A configuration with a non-positive duration (patient_001's data with
duration_hours set to 0). -/
def cfgZeroDur : PatientConfig := { patient001 with durationHours := 0 }

theorem spec_C4_witness :
    cfgZeroDur.durationHours ≤ 0 ∧ hrAuxList cfgZeroDur zeroStream 3 = [] ∧
    mvAuxList cfgZeroDur zeroStream 3 = [] ∧ spAuxList cfgZeroDur zeroStream 3 = [] ∧
    ldAuxList cfgZeroDur zeroStream 3 = [] := by
  have h := spec_C4_no_validation cfgZeroDur (le_refl 0) zeroStream 3
  exact ⟨le_refl 0, h.1, h.2.1, h.2.2.1, h.2.2.2⟩

lemma sessionDur_patient002 : sessionDur patient002 = 10800 := by
  show ((truncZ (patient002.durationHours * 3600) : ℤ) : ℝ) = 10800
  have h1 : patient002.durationHours * 3600 = ((10800 : ℤ) : ℝ) := by
    show (3.0 : ℝ) * 3600 = ((10800 : ℤ) : ℝ)
    norm_num
  rw [h1, truncZ_intCast]
  norm_num

/-- The three-phase exercise profile of C5 over a session of length d:
a linear ramp from 70 towards 100 on the first 30%, a plateau within
20 bpm of 130 on the middle 40%, and a linear ramp from 130 back down
on the final 30%. -/
def exercisePhaseP (d t : ℝ) : Prop :=
  (0 ≤ t → t < 0.3 * d →
    hrBase .exerciseSession t = 70 + (t / d) * 100 ∧
    70 ≤ hrBase .exerciseSession t ∧ hrBase .exerciseSession t < 100) ∧
  (0.3 * d ≤ t → t < 0.7 * d → |hrBase .exerciseSession t - 130| ≤ 20) ∧
  (0.7 * d ≤ t → t < d →
    hrBase .exerciseSession t = 130 - (t / d - 0.7) * 200 ∧
    70 < hrBase .exerciseSession t ∧ hrBase .exerciseSession t ≤ 130)

/-- C5: for the exercise_session pattern, the heart-rate base model
follows the ramp/plateau/ramp profile over the configured duration of the
(unique) exercise patient, whose configured duration is the 3-hour window
the source normalises by. -/
theorem spec_C5_exercise_profile (cfg : PatientConfig) (hc : cfg ∈ patientConfigs)
    (hp : cfg.pattern = .exerciseSession) (t : ℝ) :
    exercisePhaseP (sessionDur cfg) t := by
  have hcfg : cfg = patient002 := by
    simp only [patientConfigs, List.mem_cons, List.not_mem_nil, or_false] at hc
    rcases hc with rfl | rfl | rfl
    · exact absurd hp (by simp [patient001])
    · rfl
    · exact absurd hp (by simp [patient003])
  subst hcfg
  rw [sessionDur_patient002]
  unfold exercisePhaseP hrBase
  refine ⟨?_, ?_, ?_⟩
  · intro h0 h3
    have hnt : t / 10800 < 0.3 := by rw [div_lt_iff (by norm_num : (0:ℝ) < 10800)]; linarith
    rw [if_pos hnt]
    have ht10 : 0 ≤ t / 10800 := div_nonneg h0 (by norm_num)
    exact ⟨rfl, by nlinarith, by nlinarith⟩
  · intro h3 h7
    have hnt1 : ¬ (t / 10800 < 0.3) := by
      rw [not_lt, le_div_iff (by norm_num : (0:ℝ) < 10800)]
      linarith
    have hnt2 : t / 10800 < 0.7 := by
      rw [div_lt_iff (by norm_num : (0:ℝ) < 10800)]
      linarith
    rw [if_neg hnt1, if_pos hnt2]
    have hs1 := Real.neg_one_le_sin (t / 10800 * 20)
    have hs2 := Real.sin_le_one (t / 10800 * 20)
    rw [abs_le]
    constructor <;> nlinarith
  · intro h7 hd
    have hnt1 : ¬ (t / 10800 < 0.3) := by
      rw [not_lt, le_div_iff (by norm_num : (0:ℝ) < 10800)]
      linarith
    have hnt2 : ¬ (t / 10800 < 0.7) := by
      rw [not_lt, le_div_iff (by norm_num : (0:ℝ) < 10800)]
      linarith
    rw [if_neg hnt1, if_neg hnt2]
    have hlt : t / 10800 < 1 := by
      rw [div_lt_iff (by norm_num : (0:ℝ) < 10800)]
      linarith
    have hge : 0.7 ≤ t / 10800 := by
      rw [le_div_iff (by norm_num : (0:ℝ) < 10800)]
      linarith
    exact ⟨rfl, by nlinarith, by nlinarith⟩

theorem spec_C5_witness :
    exercisePhaseP (sessionDur patient002) 1000 ∧
    exercisePhaseP (sessionDur patient002) 5000 ∧
    exercisePhaseP (sessionDur patient002) 9000 :=
  ⟨spec_C5_exercise_profile patient002 (List.mem_cons_of_mem _ (List.mem_cons_self _ _)) rfl 1000,
   spec_C5_exercise_profile patient002 (List.mem_cons_of_mem _ (List.mem_cons_self _ _)) rfl 5000,
   spec_C5_exercise_profile patient002 (List.mem_cons_of_mem _ (List.mem_cons_self _ _)) rfl 9000⟩

/-- Rewriting only the reported timestamp of a heart-rate aux record to
the drifted clock. -/
def hrShiftTs (cfg : PatientConfig) (drift : ℝ) (a : HRAux) : HRAux :=
  ⟨a.t, a.err, ⟨hrStart cfg + a.t * (1 + drift), a.out.bpm, a.out.conf⟩⟩

/-- Everything of a heart-rate aux record except the reported timestamp. -/
def hrStrip (a : HRAux) : ℝ × Bool × ℤ × ℝ := (a.t, a.err, a.out.bpm, a.out.conf)

lemma hrMk_drift_eq (cfg : PatientConfig) (drift t : ℝ) (s : RNG) :
    (hrMk cfg drift t s).1 = hrShiftTs cfg drift (hrMk cfg 0 t s).1 ∧
    (hrMk cfg drift t s).2 = (hrMk cfg 0 t s).2 := by
  unfold hrMk hrShiftTs
  dsimp only
  split_ifs <;> exact ⟨rfl, rfl⟩

/-- C6: the heart-rate clock drift is drawn once per run from
[-0.0001, 0.0001) (i.e. within ±0.01%), every reported timestamp equals
start + t*(1+drift) where t is the true elapsed tick time, and the tick
schedule, error flags, bpm values and confidences of the run are exactly
those of a drift-free run on the same stream. -/
theorem spec_C6_clock_drift (cfg : PatientConfig) (s : RNG) (fuel : ℕ) :
    (-0.0001 ≤ (unif (-0.0001) 0.0001 s).1 ∧ (unif (-0.0001) 0.0001 s).1 < 0.0001) ∧
    ListAll (fun a => a.out.ts = hrStart cfg + a.t * (1 + (unif (-0.0001) 0.0001 s).1))
      (hrAuxList cfg s fuel) ∧
    (hrAuxList cfg s fuel).map hrStrip =
      (hrAuxListD cfg 0 (unif (-0.0001) 0.0001 s).2 fuel).map hrStrip := by
  refine ⟨⟨unif_ge (by norm_num) s, unif_lt (by norm_num) s⟩, ?_, ?_⟩
  · exact hrD_all cfg _ _ fuel _ (fun t s2 _ _ _ => by rw [hrMk_ts, hrMk_t])
  · have hmap := chanLoop_congr_map (hrP cfg 0) (hrP cfg (unif (-0.0001) 0.0001 s).1)
      (hrShiftTs cfg (unif (-0.0001) 0.0001 s).1) rfl rfl rfl rfl rfl
      (fun t c s2 => by
        have h := hrMk_drift_eq cfg (unif (-0.0001) 0.0001 s).1 t s2
        show ((hrMk cfg (unif (-0.0001) 0.0001 s).1 t s2).1, (),
            (hrMk cfg (unif (-0.0001) 0.0001 s).1 t s2).2) =
          (hrShiftTs cfg (unif (-0.0001) 0.0001 s).1 (hrMk cfg 0 t s2).1, (),
            (hrMk cfg 0 t s2).2)
        rw [h.1, h.2])
      fuel 0 () (unif (-0.0001) 0.0001 s).2
    show (hrAuxListD cfg (unif (-0.0001) 0.0001 s).1 (unif (-0.0001) 0.0001 s).2 fuel).map
        hrStrip = _
    rw [hrAuxListD, hmap, List.map_map]
    rfl

/-- C8 (amended): pulse_quality thresholds good at spo2 at least 97 and
fair at spo2 in [94,97) hold for every record in which no error branch
fired; whenever an error branch fired the quality is poor, and whenever
spo2 is below 94 or outside [90,100] the quality is poor (values outside
[90,100] arise only from error branches). -/
theorem spec_C8_quality_rules (cfg : PatientConfig) (s : RNG) (fuel : ℕ) :
    ListAll spAuxP (spAuxList cfg s fuel) :=
  sp_all cfg s fuel _ (fun t s2 _ _ _ => spMk_auxP cfg t s2)

/-- C7 (amended): in every movement record in which no corruption branch
fired, the emitted axes are the 3-decimal roundings of the pre-rounding
axis values, the emitted magnitude is the 3-decimal rounding of the
Euclidean norm of those pre-rounding values (not of the emitted rounded
axes), and it is within 0.0015 of the norm of the emitted axes. -/
theorem spec_C7_magnitude (cfg : PatientConfig) (s : RNG) (fuel : ℕ) :
    ListAll (fun a => mvAuxP a ∧ (a.corrupt = .ok → ∀ m xe ye ze : ℝ,
      a.out.mag = some m → a.out.x = some xe → a.out.y = some ye → a.out.z = some ze →
      |m - Real.sqrt (xe ^ 2 + ye ^ 2 + ze ^ 2)| ≤ 0.0015)) (mvAuxList cfg s fuel) := by
  apply mv_all cfg s fuel _
  intro t s2 _ _ _
  refine ⟨mvMk_auxP cfg t s2, ?_⟩
  intro hok m xe ye ze hm hx hy hz
  obtain ⟨hx', hy', hz', hm'⟩ := mvMk_auxP cfg t s2 hok
  rw [hx'] at hx
  rw [hy'] at hy
  rw [hz'] at hz
  rw [hm'] at hm
  obtain rfl : roundTo 3 (mvMk cfg t s2).1.xp = xe := Option.some.inj hx
  obtain rfl : roundTo 3 (mvMk cfg t s2).1.yp = ye := Option.some.inj hy
  obtain rfl : roundTo 3 (mvMk cfg t s2).1.zp = ze := Option.some.inj hz
  obtain rfl : roundTo 3 (Real.sqrt ((mvMk cfg t s2).1.xp ^ 2 + (mvMk cfg t s2).1.yp ^ 2 +
      (mvMk cfg t s2).1.zp ^ 2)) = m := Option.some.inj hm
  exact norm3_round_close _ _ _

lemma truncZ_strict {x y : ℝ} (hx : 0 ≤ x) (h : x + 1 ≤ y) : truncZ x < truncZ y := by
  have hy : 0 ≤ y := by linarith
  unfold truncZ
  rw [if_pos hx, if_pos hy]
  have h1 : ⌊x + 1⌋ = ⌊x⌋ + 1 := Int.floor_add_one x
  have h2 := Int.floor_le_floor h
  omega

lemma starts_nonneg (cfg : PatientConfig) (hc : cfg ∈ patientConfigs) :
    0 ≤ mvStart cfg ∧ 0 ≤ spStart cfg := by
  simp only [patientConfigs, List.mem_cons, List.not_mem_nil, or_false] at hc
  rcases hc with rfl | rfl | rfl <;>
    constructor <;>
    norm_num [mvStart, spStart, baseEpoch, patient001, patient002, patient003]

/-- C10: within one configured patient's output for a single channel, the
emitted timestamps strictly increase from record to record: the drifted
heart-rate timestamps (|drift| bounded by 0.0001 while steps are at least
0.85 s), the integer unix-millisecond movement timestamps (steps at least
0.08 s = 80 ms) and the integer unix-second blood-oxygen timestamps
(steps at least 1.5 s). -/
theorem spec_C10_ts_strict_mono (cfg : PatientConfig) (hc : cfg ∈ patientConfigs)
    (s : RNG) (fuel : ℕ) :
    List.Chain' (fun a b : HRAux => a.out.ts < b.out.ts) (hrAuxList cfg s fuel) ∧
    List.Chain' (fun a b : MvAux => a.out.ts < b.out.ts) (mvAuxList cfg s fuel) ∧
    List.Chain' (fun a b : SpAux => a.out.time < b.out.time) (spAuxList cfg s fuel) := by
  obtain ⟨hmv0, hsp0⟩ := starts_nonneg cfg hc
  refine ⟨?_, ?_, ?_⟩
  · have hd1 : -0.0001 ≤ (unif (-0.0001) 0.0001 s).1 := unif_ge (by norm_num) s
    have hts : ListAll
        (fun a : HRAux => a.out.ts = hrStart cfg + a.t * (1 + (unif (-0.0001) 0.0001 s).1))
        (hrAuxList cfg s fuel) :=
      hrD_all cfg _ _ fuel _ (fun t s2 _ _ _ => by rw [hrMk_ts, hrMk_t])
    refine chain_imp_all (fun a b ha hb hab => ?_) (hrD_chain cfg _ _ fuel) hts
    rw [ha, hb]
    have hpos : (0 : ℝ) < 1 + (unif (-0.0001) 0.0001 s).1 := by linarith
    nlinarith
  · have hts : ListAll
        (fun a : MvAux => a.out.ts = truncZ ((mvStart cfg + a.t) * 1000) ∧ 0 ≤ a.t)
        (mvAuxList cfg s fuel) :=
      mv_all cfg s fuel _ (fun t s2 ht _ _ => by
        constructor
        · rw [mvMk_t, mvMk_ts]
        · rw [mvMk_t]; exact ht)
    refine chain_imp_all (fun a b ha hb hab => ?_) (mv_chain cfg s fuel) hts
    rw [ha.1, hb.1]
    apply truncZ_strict (by nlinarith [ha.2]) (by nlinarith)
  · have hts : ListAll
        (fun a : SpAux => a.out.time = truncZ (spStart cfg + a.t) ∧ 0 ≤ a.t)
        (spAuxList cfg s fuel) :=
      sp_all cfg s fuel _ (fun t s2 ht _ _ => by
        constructor
        · rw [spMk_t, spMk_time]
        · rw [spMk_t]; exact ht)
    refine chain_imp_all (fun a b ha hb hab => ?_) (sp_chain cfg s fuel) hts
    rw [ha.1, hb.1]
    apply truncZ_strict (by nlinarith [ha.2]) (by nlinarith)

theorem spec_C10_witness :
    List.Chain' (fun a b : HRAux => a.out.ts < b.out.ts) (hrAuxList patient001 zeroStream 3) ∧
    List.Chain' (fun a b : MvAux => a.out.ts < b.out.ts) (mvAuxList patient001 zeroStream 3) ∧
    List.Chain' (fun a b : SpAux => a.out.time < b.out.time) (spAuxList patient001 zeroStream 3) :=
  spec_C10_ts_strict_mono patient001 (List.mem_cons_self _ _) zeroStream 3

/-! ## Concrete counterexample runs -/

/-- One emitting iteration of the loop, for concrete evaluation. -/
lemma chanLoop_one {σ A : Type} (P : ChanP σ A) (t : ℝ) (c : σ) (s : RNG)
    (hd : t < P.dur) (hg : ¬ inGap t P.gaps) (hdr : ¬ ((rand1 s).1 < P.drop)) :
    chanLoop P 1 t c s = [(P.mkR t c (rand1 s).2).1] := by
  rw [show (1 : ℕ) = 0 + 1 from rfl, chanLoop, if_pos hd, if_neg hg, if_neg hdr, chanLoop_zero]

lemma sessionDur_patient001 : sessionDur patient001 = 9000 := by
  show ((truncZ (patient001.durationHours * 3600) : ℤ) : ℝ) = 9000
  have h1 : patient001.durationHours * 3600 = ((9000 : ℤ) : ℝ) := by
    show (2.5 : ℝ) * 3600 = ((9000 : ℤ) : ℝ)
    norm_num
  rw [h1, truncZ_intCast]
  norm_num

lemma fract_half : Int.fract (0.5 : ℝ) = 0.5 :=
  Int.fract_eq_self.mpr ⟨by norm_num, by norm_num⟩

/-- Constant one-half oracle stream. -/
def halfStream : RNG := fun _ => 0.5

/-- C4 (counterexample): on a configuration whose duration is zero the
program raises no error at all: the four session-length generators run
and return ordinary (empty) output, and the temperature generator even
emits records, so generation does begin and complete without any fatal
configuration error being reported. -/
theorem spec_C4_counterexample :
    cfgZeroDur.durationHours ≤ 0 ∧
    hrAuxList cfgZeroDur halfStream 3 = [] ∧ mvAuxList cfgZeroDur halfStream 3 = [] ∧
    spAuxList cfgZeroDur halfStream 3 = [] ∧ ldAuxList cfgZeroDur halfStream 3 = [] ∧
    tpAuxList cfgZeroDur halfStream 1 ≠ [] := by
  have hnd : ¬ (0 : ℝ) < sessionDur cfgZeroDur := not_lt.mpr (sessionDur_nonpos (le_refl 0))
  refine ⟨le_refl 0, chanLoop_done _ hnd () _ 3, chanLoop_done _ hnd () _ 3,
    chanLoop_done _ hnd () _ 3, chanLoop_done _ hnd () _ 3, ?_⟩
  have hdur : tpDur cfgZeroDur = 1500 := by
    show ((truncZ (cfgZeroDur.durationHours * 3600 + |cfgZeroDur.tpOffset| + 600) : ℤ) : ℝ) = 1500
    have h1 : cfgZeroDur.durationHours * 3600 + |cfgZeroDur.tpOffset| + 600 = ((1500 : ℤ) : ℝ) := by
      show (0 : ℝ) * 3600 + |(-900 : ℝ)| + 600 = ((1500 : ℤ) : ℝ)
      rw [abs_neg, abs_of_nonneg (by norm_num : (0 : ℝ) ≤ 900)]
      norm_num
    rw [h1, truncZ_intCast]
    norm_num
  have hpos : (0 : ℝ) < (tpP cfgZeroDur).dur := by
    show (0 : ℝ) < tpDur cfgZeroDur
    rw [hdur]
    norm_num
  have hgap : ¬ inGap 0 (tpP cfgZeroDur).gaps := by
    show ¬ inGap 0 cfgZeroDur.tpGaps
    rintro ⟨g, hg, hc⟩
    have hgs : g = ((3000 : ℝ), (180 : ℝ)) := by
      have : g ∈ [((3000 : ℝ), (180 : ℝ))] := hg
      simpa using this
    rw [hgs] at hc
    norm_num at hc
  have hdrop : ¬ ((rand1 (unif 20 24 halfStream).2).1 < (tpP cfgZeroDur).drop) := by
    show ¬ (Int.fract (0.5 : ℝ) < (0.015 : ℝ))
    rw [fract_half]
    norm_num
  show chanLoop (tpP cfgZeroDur) 1 0 (roundTo 1 (unif 20 24 halfStream).1)
      (unif 20 24 halfStream).2 ≠ []
  rw [chanLoop_one (tpP cfgZeroDur) 0 _ _ hpos hgap hdrop]
  exact List.cons_ne_nil _ _

/-- Oracle stream driving the blood-oxygen loop into the implausibly-high
error branch on its very first tick. -/
def spCeStream : RNG := fun n =>
  if n = 2 then 0 else if n = 4 then 0.001 else if n = 5 then 0 else 0.5

lemma roundTo1_101 : roundTo 1 (101 : ℝ) = 101 := by
  unfold roundTo
  rw [show (101 : ℝ) * 10 ^ 1 = ((1010 : ℤ) : ℝ) by norm_num]
  rw [show rnd ((1010 : ℤ) : ℝ) = 1010 from rnd_eq_of_abs_lt (by norm_num)]
  norm_num

/-- C8 (counterexample): the claim "pulse_quality is good when spo2 is at
least 97" fails on the code: an emitted record produced by the
implausibly-high error branch has spo2 = 101 (which is at least 97) and
pulse_quality poor, because quality is computed before the error branch
overwrites the value. -/
theorem spec_C8_counterexample :
    ∃ a ∈ spAuxList patient001 spCeStream 1,
      97 ≤ a.out.spo2 ∧ a.out.quality ≠ SpQuality.good := by
  have hpos : (0 : ℝ) < (spP patient001).dur := by
    show (0 : ℝ) < sessionDur patient001
    rw [sessionDur_patient001]
    norm_num
  have hgap : ¬ inGap 0 (spP patient001).gaps := by
    show ¬ inGap 0 patient001.spGaps
    rintro ⟨g, hg, hc⟩
    have hgs : g = ((1800 : ℝ), (1200 : ℝ)) ∨ g = ((5400 : ℝ), (300 : ℝ)) := by
      have : g ∈ [((1800 : ℝ), (1200 : ℝ)), ((5400 : ℝ), (300 : ℝ))] := hg
      simpa using this
    rcases hgs with rfl | rfl <;> norm_num at hc
  have hdrop : ¬ ((rand1 spCeStream).1 < (spP patient001).drop) := by
    show ¬ (Int.fract (0.5 : ℝ) < (0.01 : ℝ))
    rw [fract_half]
    norm_num
  have hlist : spAuxList patient001 spCeStream 1 = [(spMk patient001 0 (rand1 spCeStream).2).1] :=
    chanLoop_one (spP patient001) 0 () spCeStream hpos hgap hdrop
  have hr1 : ¬ ((rand1 (simulateSpo2 0 patient001.pattern (rand1 spCeStream).2).2).1 <
      (0.005 : ℝ)) := by
    show ¬ (Int.fract (0.5 : ℝ) < (0.005 : ℝ))
    rw [fract_half]
    norm_num
  have hr2 : (rand1 (rand1 (simulateSpo2 0 patient001.pattern (rand1 spCeStream).2).2).2).1 <
      (0.003 : ℝ) := by
    show Int.fract (0.001 : ℝ) < (0.003 : ℝ)
    rw [Int.fract_eq_self.mpr ⟨by norm_num, by norm_num⟩]
    norm_num
  have hu101 : (unif 101 110
      (rand1 (rand1 (simulateSpo2 0 patient001.pattern (rand1 spCeStream).2).2).2).2).1 = 101 := by
    show (101 : ℝ) + Int.fract (0 : ℝ) * (110 - 101) = 101
    rw [Int.fract_zero]
    ring
  have hA : (spMk patient001 0 (rand1 spCeStream).2).1 =
      ⟨0, .high, ⟨truncZ (spStart patient001 + 0), 101, .poor⟩⟩ := by
    unfold spMk
    dsimp only
    rw [if_neg hr1, if_pos hr2, hu101, roundTo1_101]
  refine ⟨(spMk patient001 0 (rand1 spCeStream).2).1, ?_, ?_, ?_⟩
  · rw [hlist]
    exact List.mem_cons_self _ _
  · rw [hA]
    norm_num
  · rw [hA]
    decide

/-- Oracle stream driving the movement loop, on its very first tick, into
the morning lateral-noise branch with all three pre-rounding axis values
exactly 1.0004999: each axis rounds to 1.000 while the magnitude
sqrt(3)*1.0004999 is about 1.7329, rounding to 1.733, whereas the norm of
the rounded axes is sqrt(3), rounding to 1.732. -/
def mvCeStream : RNG := fun n =>
  if n = 1 then 0.05
  else if n = 2 then 0.75
  else if n = 3 then 1.0009998 / 0.3
  else if n = 4 then 0.75
  else if n = 5 then 1.0009998 / 0.3
  else if n = 6 then -(1081.04999 / 9.81)
  else 0.5

def mvS1 : RNG := (rand1 mvCeStream).2
def mvR : ℝ × RNG := rand1 mvS1
def mvXU : ℝ × RNG := unif (-1) 1 mvR.2
def mvX : ℝ × RNG := addNoise mvXU.1 0.3 mvXU.2
def mvZU : ℝ × RNG := unif (-1) 1 mvX.2
def mvZ : ℝ × RNG := addNoise mvZU.1 0.3 mvZU.2
def mvY : ℝ × RNG := addNoise (-9.81) 0.01 mvZ.2

lemma fract_q75 : Int.fract (0.75 : ℝ) = 0.75 :=
  Int.fract_eq_self.mpr ⟨by norm_num, by norm_num⟩

lemma mvBranch : (rand1 mvS1).1 < 0.1 := by
  show Int.fract (0.05 : ℝ) < 0.1
  rw [Int.fract_eq_self.mpr ⟨by norm_num, by norm_num⟩]
  norm_num

lemma simMorning_eval :
    simulateMovementXYZ 0 patient001.pattern mvS1 = ((mvX.1, mvY.1, mvZ.1), mvY.2) := by
  show simulateMovementXYZ 0 Pattern.morningRoutine mvS1 = _
  unfold simulateMovementXYZ
  dsimp only
  rw [if_pos mvBranch]
  rfl

lemma mvHr1 : ¬ ((rand1 mvY.2).1 < (0.004 : ℝ)) := by
  show ¬ (Int.fract (0.5 : ℝ) < (0.004 : ℝ))
  rw [fract_half]
  norm_num

lemma mvHr2 : ¬ ((rand1 (rand1 mvY.2).2).1 < (0.002 : ℝ)) := by
  show ¬ (Int.fract (0.5 : ℝ) < (0.002 : ℝ))
  rw [fract_half]
  norm_num

lemma mvX_val : mvX.1 = 1.0004999 := by
  show ((-1 : ℝ) + Int.fract (0.75 : ℝ) * (1 - -1)) * (1 + (0 + 0.3 * (1.0009998 / 0.3))) =
    1.0004999
  rw [fract_q75]
  norm_num

lemma mvZ_val : mvZ.1 = 1.0004999 := by
  show ((-1 : ℝ) + Int.fract (0.75 : ℝ) * (1 - -1)) * (1 + (0 + 0.3 * (1.0009998 / 0.3))) =
    1.0004999
  rw [fract_q75]
  norm_num

lemma mvY_val : mvY.1 = 1.0004999 := by
  show (-9.81 : ℝ) * (1 + (0 + 0.01 * -(1081.04999 / 9.81))) = 1.0004999
  norm_num

lemma roundTo3_c : roundTo 3 (1.0004999 : ℝ) = 1 := by
  unfold roundTo
  rw [show (1.0004999 : ℝ) * 10 ^ 3 = 1000.4999 by norm_num]
  rw [show rnd (1000.4999 : ℝ) = 1000 from
    rnd_eq_of_abs_lt (abs_lt.mpr ⟨by push_cast; norm_num, by push_cast; norm_num⟩)]
  norm_num

lemma roundTo3_cmag :
    roundTo 3 (Real.sqrt ((1.0004999 : ℝ) ^ 2 + 1.0004999 ^ 2 + 1.0004999 ^ 2)) = 1.733 := by
  have hs1 : (1.7325 : ℝ) < Real.sqrt ((1.0004999 : ℝ) ^ 2 + 1.0004999 ^ 2 + 1.0004999 ^ 2) := by
    rw [show (1.7325 : ℝ) = Real.sqrt (1.7325 ^ 2) from (Real.sqrt_sq (by norm_num)).symm]
    exact Real.sqrt_lt_sqrt (by positivity) (by norm_num)
  have hs2 : Real.sqrt ((1.0004999 : ℝ) ^ 2 + 1.0004999 ^ 2 + 1.0004999 ^ 2) < 1.7335 := by
    rw [show (1.7335 : ℝ) = Real.sqrt (1.7335 ^ 2) from (Real.sqrt_sq (by norm_num)).symm]
    exact Real.sqrt_lt_sqrt (by positivity) (by norm_num)
  unfold roundTo
  rw [show rnd (Real.sqrt ((1.0004999 : ℝ) ^ 2 + 1.0004999 ^ 2 + 1.0004999 ^ 2) * 10 ^ 3) =
      1733 from rnd_eq_of_abs_lt (abs_lt.mpr ⟨by push_cast; nlinarith, by push_cast; nlinarith⟩)]
  norm_num

lemma roundTo3_sqrt3 : roundTo 3 (Real.sqrt ((1 : ℝ) ^ 2 + 1 ^ 2 + 1 ^ 2)) = 1.732 := by
  have hs1 : (1.7315 : ℝ) < Real.sqrt ((1 : ℝ) ^ 2 + 1 ^ 2 + 1 ^ 2) := by
    rw [show (1.7315 : ℝ) = Real.sqrt (1.7315 ^ 2) from (Real.sqrt_sq (by norm_num)).symm]
    exact Real.sqrt_lt_sqrt (by positivity) (by norm_num)
  have hs2 : Real.sqrt ((1 : ℝ) ^ 2 + 1 ^ 2 + 1 ^ 2) < 1.7325 := by
    rw [show (1.7325 : ℝ) = Real.sqrt (1.7325 ^ 2) from (Real.sqrt_sq (by norm_num)).symm]
    exact Real.sqrt_lt_sqrt (by positivity) (by norm_num)
  unfold roundTo
  rw [show rnd (Real.sqrt ((1 : ℝ) ^ 2 + 1 ^ 2 + 1 ^ 2) * 10 ^ 3) = 1732 from
    rnd_eq_of_abs_lt (abs_lt.mpr ⟨by push_cast; nlinarith, by push_cast; nlinarith⟩)]
  norm_num

lemma mvMk_ce_eval : (mvMk patient001 0 mvS1).1 =
    ⟨0, 1.0004999, 1.0004999, 1.0004999, .ok,
      ⟨truncZ ((mvStart patient001 + 0) * 1000), some 1, some 1, some 1, some 1.733⟩⟩ := by
  unfold mvMk
  dsimp only
  rw [simMorning_eval]
  dsimp only
  rw [if_neg mvHr1, if_neg mvHr2, mvX_val, mvY_val, mvZ_val, roundTo3_c, roundTo3_cmag]

/-- C7 (counterexample): an uncorrupted emitted movement record whose axes
are all 1.000 but whose magnitude field is 1.733, while the 3-decimal
rounding of the Euclidean norm of the emitted (x,y,z) values is 1.732:
the code rounds the norm of the pre-rounding axis values, not of the
emitted ones. -/
theorem spec_C7_counterexample :
    ∃ a ∈ mvAuxList patient001 mvCeStream 1, a.corrupt = MvCorrupt.ok ∧
      a.out.x = some 1 ∧ a.out.y = some 1 ∧ a.out.z = some 1 ∧
      a.out.mag ≠ some (roundTo 3 (Real.sqrt ((1 : ℝ) ^ 2 + 1 ^ 2 + 1 ^ 2))) := by
  have hpos : (0 : ℝ) < (mvP patient001).dur := by
    show (0 : ℝ) < sessionDur patient001
    rw [sessionDur_patient001]
    norm_num
  have hgap : ¬ inGap 0 (mvP patient001).gaps := by
    show ¬ inGap 0 patient001.mvGaps
    rintro ⟨g, hg, hc⟩
    have hgs : g = ((800 : ℝ), (300 : ℝ)) ∨ g = ((2400 : ℝ), (600 : ℝ)) ∨
        g = ((5100 : ℝ), (240 : ℝ)) := by
      have : g ∈ [((800 : ℝ), (300 : ℝ)), ((2400 : ℝ), (600 : ℝ)), ((5100 : ℝ), (240 : ℝ))] := hg
      simpa using this
    rcases hgs with rfl | rfl | rfl <;> norm_num at hc
  have hdrop : ¬ ((rand1 mvCeStream).1 < (mvP patient001).drop) := by
    show ¬ (Int.fract (0.5 : ℝ) < (0.003 : ℝ))
    rw [fract_half]
    norm_num
  have hlist : mvAuxList patient001 mvCeStream 1 =
      [(mvMk patient001 0 (rand1 mvCeStream).2).1] :=
    chanLoop_one (mvP patient001) 0 () mvCeStream hpos hgap hdrop
  refine ⟨(mvMk patient001 0 (rand1 mvCeStream).2).1, ?_, ?_, ?_, ?_, ?_, ?_⟩
  · rw [hlist]
    exact List.mem_cons_self _ _
  · show ((mvMk patient001 0 mvS1).1).corrupt = MvCorrupt.ok
    rw [mvMk_ce_eval]
  · show ((mvMk patient001 0 mvS1).1).out.x = some 1
    rw [mvMk_ce_eval]
  · show ((mvMk patient001 0 mvS1).1).out.y = some 1
    rw [mvMk_ce_eval]
  · show ((mvMk patient001 0 mvS1).1).out.z = some 1
    rw [mvMk_ce_eval]
  · show ((mvMk patient001 0 mvS1).1).out.mag ≠
      some (roundTo 3 (Real.sqrt ((1 : ℝ) ^ 2 + 1 ^ 2 + 1 ^ 2)))
    rw [mvMk_ce_eval, roundTo3_sqrt3]
    simp only [ne_eq, Option.some.injEq]
    norm_num

end VPG
